import Mathlib

/-!
Verification development for the kube-score rule-evaluation and
relationship-resolution engine.

The Go sources are shallowly embedded: each Go function of interest is
translated into an executable Lean definition with the same name, Go maps
become association lists with Go-map insert/lookup semantics, Go multiple
return values `(T, error)` become `T × Option String`, and nil pointers
become `Option`.
-/

set_option maxHeartbeats 1000000

/-- A Kubernetes label map (Go `map[string]string`).  Keys are unique in any
map produced by manifest parsing; lookup returns the first binding. -/
abbrev LabelMap := List (String × String)

/-- Go map read `m[k]`, returning `none` when the key is absent. -/
def lookupStr (m : LabelMap) (k : String) : Option String :=
  match m.find? (fun p => p.1 == k) with
  | some p => some p.2
  | none => none

/-- Go map read `m[k]` with the zero value `""` for an absent key. -/
def lookupStrD (m : LabelMap) (k : String) : String :=
  (lookupStr m k).getD ""

/-- Namespace defaulting, the `if ns == "" { ns = options.Namespace }`
pattern repeated across the checks. -/
def resolveNs (ns defaultNs : String) : String :=
  if ns = "" then defaultNs else ns

/-! ### Go string primitives

`strings.ToLower`, `strings.TrimSpace`, `strings.Split` and
`strings.ReplaceAll` are modelled on the character list underlying a
`String`, which keeps them fully reducible. -/

/-- `unicode.IsSpace` restricted to the code points below U+0100. -/
def isSpaceGo (c : Char) : Bool :=
  c = ' ' || c = '\t' || c = '\n' || c = (Char.ofNat 11) ||
    c = (Char.ofNat 12) || c = '\r' || c = (Char.ofNat 133) ||
    c = (Char.ofNat 160)

/-- `strings.ToLower` (ASCII range; label values and annotation values in
the claims are ASCII). -/
def goToLower (s : String) : String :=
  ⟨s.data.map Char.toLower⟩

/-- `strings.TrimSpace`. -/
def goTrim (s : String) : String :=
  ⟨((s.data.dropWhile isSpaceGo).reverse.dropWhile isSpaceGo).reverse⟩

/-- `strings.Split` at one separator character, on the character list. -/
def splitOnCharList (sep : Char) : List Char → List (List Char)
  | [] => [[]]
  | c :: rest =>
    match splitOnCharList sep rest with
    | [] => [[]]
    | cur :: others =>
      if c = sep then [] :: cur :: others else (c :: cur) :: others

/-- `strings.Split(s, sep)` for a one-character separator. -/
def goSplit (s : String) (sep : Char) : List String :=
  (splitOnCharList sep s.data).map (fun cs => ⟨cs⟩)

/-- `strings.ReplaceAll(s, from, to)` for one-character patterns. -/
def goReplaceChar (s : String) (a b : Char) : String :=
  ⟨s.data.map (fun c => if c = a then b else c)⟩

/-! ## Label selector model (k8s.io/apimachinery)

`metav1.LabelSelector`, `metav1.LabelSelectorAsSelector` and
`labels.Selector.Matches` are external-collaborator code
(k8s.io/apimachinery); they are modelled here after that library.
Label-name/value format validation is omitted, so the parse failures of
this model are a subset of the library's; the operator/value-arity
validation that the claims rely on is modelled exactly. -/

/-- `metav1.LabelSelectorRequirement`. -/
structure MatchExpr where
  key : String
  operator : String
  values : List String
deriving DecidableEq, Repr

/-- `metav1.LabelSelector`: `matchLabels` plus `matchExpressions`. -/
structure LabelSelector where
  matchLabels : LabelMap := []
  matchExpressions : List MatchExpr := []
deriving DecidableEq, Repr

/-- `selection.Operator`, restricted to the operators reachable from
`LabelSelectorAsSelector`. -/
inductive SelOp where
  | opIn
  | opNotIn
  | opExists
  | opDoesNotExist
deriving DecidableEq, Repr

/-- `labels.Requirement`. -/
structure Requirement where
  key : String
  op : SelOp
  values : List String
deriving DecidableEq, Repr

/-- A parsed `labels.Selector`: either `labels.Nothing()` (matches no label
set) or a conjunction of requirements (`labels.Everything()` is the empty
conjunction). -/
inductive Selector where
  | nothing
  | reqs (rs : List Requirement)
deriving DecidableEq, Repr

/-- `labels.NewRequirement` validation: `In`/`NotIn` need a non-empty value
set, `Exists`/`DoesNotExist` need an empty one. -/
def newRequirement (key : String) (op : SelOp) (values : List String) :
    Except String Requirement :=
  match op with
  | .opIn | .opNotIn =>
    if values.isEmpty then
      .error "for 'in', 'notin' operators, values set can't be empty"
    else .ok ⟨key, op, values⟩
  | .opExists | .opDoesNotExist =>
    if values.isEmpty then .ok ⟨key, op, values⟩
    else .error "values set must be empty for exists and does not exist"

/-- Requirement list from the `matchLabels` entries: each `k=v` pair becomes
an `In [v]` requirement (equality and set membership match identically). -/
def matchLabelsReqs (ml : LabelMap) : List Requirement :=
  ml.map (fun p => ⟨p.1, .opIn, [p.2]⟩)

/-- Operator decoding of `LabelSelectorAsSelector`; an unknown operator
string is a parse error. -/
def decodeOperator (s : String) : Except String SelOp :=
  match s with
  | "In" => .ok .opIn
  | "NotIn" => .ok .opNotIn
  | "Exists" => .ok .opExists
  | "DoesNotExist" => .ok .opDoesNotExist
  | _ => .error (s ++ " is not a valid label selector operator")

/-- Requirement list from the `matchExpressions` entries, validating each. -/
def matchExprsReqs : List MatchExpr → Except String (List Requirement)
  | [] => .ok []
  | e :: rest => do
    let op ← decodeOperator e.operator
    let r ← newRequirement e.key op e.values
    let rs ← matchExprsReqs rest
    .ok (r :: rs)

/-- `metav1.LabelSelectorAsSelector`: `nil` maps to the match-nothing
selector, an empty selector matches everything, and otherwise every
`matchLabels` pair and `matchExpressions` entry becomes a requirement. -/
def labelSelectorAsSelector : Option LabelSelector → Except String Selector
  | none => .ok .nothing
  | some ps =>
    if ps.matchLabels.isEmpty && ps.matchExpressions.isEmpty then
      .ok (.reqs [])
    else do
      let rs ← matchExprsReqs ps.matchExpressions
      .ok (.reqs (matchLabelsReqs ps.matchLabels ++ rs))

/-- `labels.Requirement.Matches` against a label set. -/
def reqMatches (r : Requirement) (ls : LabelMap) : Bool :=
  match r.op with
  | .opIn =>
    match lookupStr ls r.key with
    | some v => r.values.contains v
    | none => false
  | .opNotIn =>
    match lookupStr ls r.key with
    | some v => !(r.values.contains v)
    | none => true
  | .opExists => (lookupStr ls r.key).isSome
  | .opDoesNotExist => (lookupStr ls r.key).isNone

/-- `labels.Selector.Matches`: `Nothing` matches no label set; a
requirement list matches when every requirement does. -/
def selectorMatches (s : Selector) (ls : LabelMap) : Bool :=
  match s with
  | .nothing => false
  | .reqs rs => rs.all (fun r => reqMatches r ls)

/-- `internal.LabelSelectorMatchesLabels`: wraps a plain label map as a
`matchLabels`-only selector and matches it, with a parse failure treated as
no match. -/
def LabelSelectorMatchesLabels (selectorLabels : LabelMap) (labels : LabelMap) :
    Bool :=
  match labelSelectorAsSelector (some { matchLabels := selectorLabels }) with
  | .ok s => selectorMatches s labels
  | .error _ => false

/-! ## Object model (domain package and k8s API types) -/

/-- `metav1.TypeMeta`. -/
structure TypeMeta where
  Kind : String := ""
  APIVersion : String := ""
deriving DecidableEq, Repr

/-- `metav1.ObjectMeta`, restricted to the fields the checks read. -/
structure ObjectMeta where
  Name : String := ""
  Namespace : String := ""
  Labels : LabelMap := []
  Annots : LabelMap := []
deriving DecidableEq, Repr

/-- `corev1.PodSpec`; its contents are not read by any of the embedded
checks, so it is a unit. -/
abbrev PodSpec := Unit

/-- `corev1.PodTemplateSpec` (its embedded `ObjectMeta` plus the unused
spec). -/
structure PodTemplateSpec where
  metadata : ObjectMeta := {}
  spec : PodSpec := ()
deriving DecidableEq, Repr

/-- Promoted field access `template.Namespace`. -/
def PodTemplateSpec.Namespace (p : PodTemplateSpec) : String :=
  p.metadata.Namespace

/-- Promoted field access `template.Labels`. -/
def PodTemplateSpec.Labels (p : PodTemplateSpec) : LabelMap :=
  p.metadata.Labels

/-- Promoted field access `template.Annotations`. -/
def PodTemplateSpec.Annots (p : PodTemplateSpec) : LabelMap :=
  p.metadata.Annots

/-- `domain.BothMeta`. -/
structure BothMeta where
  TypeMeta : TypeMeta
  ObjectMeta : ObjectMeta
deriving DecidableEq, Repr

/-- `domain.PodSpecer`: a pod-template-bearing object view. -/
structure PodSpecer where
  typeMeta : TypeMeta := {}
  objectMeta : ObjectMeta := {}
  spec : PodTemplateSpec := {}
deriving DecidableEq, Repr

/-- `GetTypeMeta`. -/
def PodSpecer.GetTypeMeta (p : PodSpecer) : TypeMeta := p.typeMeta

/-- `GetObjectMeta`. -/
def PodSpecer.GetObjectMeta (p : PodSpecer) : ObjectMeta := p.objectMeta

/-- `GetPodTemplateSpec`. -/
def PodSpecer.GetPodTemplateSpec (p : PodSpecer) : PodTemplateSpec := p.spec

/-- `corev1.Pod` (the fields read by the scoring loop). -/
structure Pod where
  typeMeta : TypeMeta := {}
  metadata : ObjectMeta := {}
  spec : PodSpec := ()
deriving DecidableEq, Repr

/-- `corev1.ServicePort`. -/
structure ServicePort where
  Name : String := ""
  Port : Int := 0
deriving DecidableEq, Repr

/-- `corev1.ServiceSpec` (selector and ports). -/
structure ServiceSpec where
  Selector : LabelMap := []
  Ports : List ServicePort := []
deriving DecidableEq, Repr

/-- `corev1.Service`. -/
structure Service where
  typeMeta : TypeMeta := {}
  metadata : ObjectMeta := {}
  Spec : ServiceSpec := {}
deriving DecidableEq, Repr

/-- `appsv1.StatefulSetSpec` (replicas and template). -/
structure StatefulSetSpec where
  Replicas : Option Int := none
  Template : PodTemplateSpec := {}
deriving DecidableEq, Repr

/-- `appsv1.StatefulSet`. -/
structure StatefulSet where
  typeMeta : TypeMeta := {}
  metadata : ObjectMeta := {}
  Spec : StatefulSetSpec := {}
deriving DecidableEq, Repr

/-- `appsv1.DeploymentSpec` (replicas and template). -/
structure DeploymentSpec where
  Replicas : Option Int := none
  Template : PodTemplateSpec := {}
deriving DecidableEq, Repr

/-- `appsv1.Deployment`. -/
structure Deployment where
  typeMeta : TypeMeta := {}
  metadata : ObjectMeta := {}
  Spec : DeploymentSpec := {}
deriving DecidableEq, Repr

/-- A NetworkPolicy ingress rule; its contents are not read by the embedded
checks, only the rule count matters. -/
abbrev NetpolIngressRule := Unit

/-- A NetworkPolicy egress rule; only presence matters. -/
abbrev NetpolEgressRule := Unit

/-- `networkingv1.NetworkPolicySpec`. -/
structure NetworkPolicySpec where
  PodSelector : LabelSelector := {}
  Ingress : List NetpolIngressRule := []
  Egress : List NetpolEgressRule := []
  PolicyTypes : List String := []
deriving DecidableEq, Repr

/-- `networkingv1.NetworkPolicy`. -/
structure NetworkPolicy where
  typeMeta : TypeMeta := {}
  metadata : ObjectMeta := {}
  Spec : NetworkPolicySpec := {}
deriving DecidableEq, Repr

/-- `networkingv1.PolicyTypeIngress`. -/
def PolicyTypeIngress : String := "Ingress"

/-- `networkingv1.PolicyTypeEgress`. -/
def PolicyTypeEgress : String := "Egress"

/-- `autoscalingv1.CrossVersionObjectReference`. -/
structure CrossVersionObjectReference where
  Kind : String := ""
  Name : String := ""
  APIVersion : String := ""
deriving DecidableEq, Repr

/-- `domain.HpaTargeter`. -/
structure HpaTargeter where
  typeMeta : TypeMeta := {}
  objectMeta : ObjectMeta := {}
  minReplicas : Option Int := none
  hpaTarget : CrossVersionObjectReference := {}
deriving DecidableEq, Repr

/-- `GetObjectMeta`. -/
def HpaTargeter.GetObjectMeta (h : HpaTargeter) : ObjectMeta := h.objectMeta

/-- `GetTypeMeta`. -/
def HpaTargeter.GetTypeMeta (h : HpaTargeter) : TypeMeta := h.typeMeta

/-- `HpaTarget`. -/
def HpaTargeter.HpaTarget (h : HpaTargeter) : CrossVersionObjectReference :=
  h.hpaTarget

/-- `MinReplicas`. -/
def HpaTargeter.MinReplicas (h : HpaTargeter) : Option Int := h.minReplicas

/-- `domain.PodDisruptionBudget` view: identity plus the selector pointer
returned by `PodDisruptionBudgetSelector()`. -/
structure PodDisruptionBudget where
  typeMeta : TypeMeta := {}
  metadata : ObjectMeta := {}
  selector : Option LabelSelector := none
deriving DecidableEq, Repr

/-- The `Namespace()` accessor. -/
def PodDisruptionBudget.Namespace (b : PodDisruptionBudget) : String :=
  b.metadata.Namespace

/-- The `PodDisruptionBudgetSelector()` accessor. -/
def PodDisruptionBudget.PodDisruptionBudgetSelector
    (b : PodDisruptionBudget) : Option LabelSelector :=
  b.selector

/-- `networkingv1.ServiceBackendPort`. -/
structure ServiceBackendPort where
  Name : String := ""
  Number : Int := 0
deriving DecidableEq, Repr

/-- `networkingv1.IngressServiceBackend`. -/
structure IngressServiceBackend where
  Name : String := ""
  Port : ServiceBackendPort := {}
deriving DecidableEq, Repr

/-- `networkingv1.IngressBackend` (the `Service` field is a pointer). -/
structure IngressBackend where
  Service : Option IngressServiceBackend := none
deriving DecidableEq, Repr

/-- `networkingv1.HTTPIngressPath`. -/
structure HTTPIngressPath where
  Path : String := ""
  Backend : IngressBackend := {}
deriving DecidableEq, Repr

/-- `networkingv1.HTTPIngressRuleValue`. -/
structure HTTPIngressRuleValue where
  Paths : List HTTPIngressPath := []
deriving DecidableEq, Repr

/-- `networkingv1.IngressRule` (the `HTTP` field is a pointer). -/
structure IngressRule where
  HTTP : Option HTTPIngressRuleValue := none
deriving DecidableEq, Repr

/-- `domain.Ingress` view. -/
structure Ingress where
  typeMeta : TypeMeta := {}
  metadata : ObjectMeta := {}
  rules : List IngressRule := []
deriving DecidableEq, Repr

/-- `GetObjectMeta`. -/
def Ingress.GetObjectMeta (i : Ingress) : ObjectMeta := i.metadata

/-- `Rules`. -/
def Ingress.Rules (i : Ingress) : List IngressRule := i.rules

/-- `domain.CronJob` view (the fields read by the scoring loop). -/
structure CronJob where
  typeMeta : TypeMeta := {}
  objectMeta : ObjectMeta := {}
  spec : PodTemplateSpec := {}
deriving DecidableEq, Repr

/-- `domain.AllTypes`: the full parsed object set, one ordered list per
resource kind. -/
structure AllTypes where
  metas : List BothMeta := []
  pods : List Pod := []
  podspeccers : List PodSpecer := []
  services : List Service := []
  statefulsets : List StatefulSet := []
  deployments : List Deployment := []
  networkpolicies : List NetworkPolicy := []
  ingresses : List Ingress := []
  cronjobs : List CronJob := []
  horizontalPodAutoscalers : List HpaTargeter := []
  poddisruptionbudgets : List PodDisruptionBudget := []
deriving Repr

/-! ## Scorecard model

Only `scorecard/enabled.go` of the scorecard package is among the sources;
the grade/score data types it manipulates are modelled from the spec. -/

/-- Modelled from the spec: the scorecard grade tiers Critical < Warning <
AllOK carried by `scorecard.Grade`, whose defining Go file is not among the
sources.  `unset` is the Go zero value, which the spec says no rule reports
as a grade ("rules must explicitly set Critical/Warning"); `almostOK` is
the intermediate tier used by checks outside this development. -/
inductive Grade where
  | unset
  | critical
  | warning
  | almostOK
  | allOK
deriving DecidableEq, Repr

/-- `scorecard.TestScoreComment`. -/
structure TestScoreComment where
  Path : String := ""
  Summary : String := ""
  Description : String := ""
deriving DecidableEq, Repr

/-- `scorecard.TestScore` (grade, skipped flag, ordered comments). -/
structure TestScore where
  Grade : Grade := .unset
  Skipped : Bool := false
  Comments : List TestScoreComment := []
deriving DecidableEq, Repr

/-- Modelled from the spec: `scorecard.TestScore.AddComment` (not among the
sources) appends one comment to the ordered comment list. -/
def TestScore.AddComment (ts : TestScore) (path summary description : String) :
    TestScore :=
  { ts with Comments := ts.Comments ++ [⟨path, summary, description⟩] }

/-- `domain.Check`. -/
structure Check where
  Name : String := ""
  ID : String := ""
  TargetType : String := ""
  Comment : String := ""
  Optional : Bool := false
deriving DecidableEq, Repr

/-! ## Enablement policy (scorecard/enabled.go) -/

/-- Modelled from the spec: the annotation key of the "ignore" list
(`ignoredChecksAnnotation` in the scorecard package, whose defining file is
not among the sources). -/
def ignoredChecksKey : String := "kube-score/ignore"

/-- Modelled from the spec: the annotation key of the "enable" list
(`optionalChecksAnnotation` in the scorecard package, whose defining file
is not among the sources). -/
def optionalChecksKey : String := "kube-score/enable"

/-- The per-rule directive values of `isIn`: an allow-valued setting yields
`some true`, a deny-valued one `some false`, anything else falls through to
the list scan.  The value is lowercased then trimmed, as in the source. -/
def directiveOfValue (v : String) : Option Bool :=
  let w := goTrim (goToLower v)
  if w = "allow" || w = "allowed" || w = "enable" || w = "enabled" ||
      w = "yes" then
    some true
  else if w = "deny" || w = "denied" || w = "disable" || w = "disabled" ||
      w = "no" then
    some false
  else
    none

/-- The rule-specific directive of an annotation source: the value stored
under `kube-score/<check id>`, decoded by `directiveOfValue`. -/
def directiveValue (annots : LabelMap) (id : String) : Option Bool :=
  match lookupStr annots ("kube-score/" ++ id) with
  | some v => directiveOfValue v
  | none => none

/-- The comma-separated list scan of `isIn`: each entry is trimmed and
compared against the check id, the `*` wildcard matches unconditionally,
and a named group found in the implied-groups table matches when the table
maps it to a list containing the id.  The package-level
`impliedIgnoreAnnotations` table is not among the sources and is passed as
the `implied` parameter. -/
def csvContains (implied : List (String × List String)) (csv key : String) :
    Bool :=
  (goSplit csv ',').any (fun v0 =>
    let v := goTrim v0
    v == key || v == "*" ||
      (match implied.find? (fun p => p.1 == v) with
       | some p => p.2.contains key
       | none => false))

/-- `isIn` of `scorecard/enabled.go`: the rule-specific directive, when
present and recognised, decides the answer; otherwise the comma-separated
list is scanned. -/
def isIn (implied : List (String × List String)) (annots : LabelMap)
    (csv key : String) : Bool :=
  match directiveValue annots key with
  | some b => b
  | none => csvContains implied csv key

/-- The `ScoredObject` fields consulted by `isEnabled`, populated from the
run configuration (`UseIgnoreChecksAnnotation`,
`UseOptionalChecksAnnotation`, `EnabledOptionalTests`). -/
structure EnablementConfig where
  useIgnoreChecks : Bool := true
  useOptionalChecks : Bool := true
  enabledOptionalTests : List String := []
deriving DecidableEq, Repr

/-- `ScoredObject.isEnabled`: the per-object decision of whether a check
runs, from the object's own annotations and (for pod-template-bearing
objects) the pod template's annotations; `none` is a Go nil child map. -/
def isEnabled (cfg : EnablementConfig)
    (implied : List (String × List String)) (check : Check)
    (annots : LabelMap) (childAnnots : Option LabelMap) : Bool :=
  if childAnnots.isSome && cfg.useIgnoreChecks &&
      isIn implied (childAnnots.getD [])
        (lookupStrD (childAnnots.getD []) ignoredChecksKey) check.ID then
    false
  else if childAnnots.isSome && cfg.useOptionalChecks &&
      isIn implied (childAnnots.getD [])
        (lookupStrD (childAnnots.getD []) optionalChecksKey) check.ID then
    true
  else if cfg.useIgnoreChecks &&
      isIn implied annots (lookupStrD annots ignoredChecksKey) check.ID then
    false
  else if cfg.useOptionalChecks &&
      isIn implied annots (lookupStrD annots optionalChecksKey) check.ID then
    true
  else if cfg.enabledOptionalTests.contains check.ID then
    true
  else if check.Optional then
    false
  else
    true

/-! ## Rule registry (score/checks/checks.go) -/

namespace checks

/-- A Go `map[string]T` as an association list: insertion order is
preserved, and inserting an existing key overwrites its value in place. -/
abbrev GoMap (v : Type) := List (String × v)

/-- Go map write `m[k] = x`: replace the binding when the key exists,
append otherwise. -/
def goInsert {v : Type} (m : GoMap v) (k : String) (x : v) : GoMap v :=
  match m with
  | [] => [(k, x)]
  | (k0, x0) :: rest =>
    if k0 = k then (k0, x) :: rest else (k0, x0) :: goInsert rest k x

/-- Go map read `m[k]`. -/
def goLookup {v : Type} (m : GoMap v) (k : String) : Option v :=
  match m with
  | [] => none
  | (k0, x0) :: rest => if k0 = k then some x0 else goLookup rest k

/-- Go map value iteration (in one admissible order; Go's is unspecified). -/
def goValues {v : Type} (m : GoMap v) : List v := m.map (·.2)

/-- `checks.Config`: the run-configuration set of ignored rule ids. -/
structure Config where
  IgnoredTests : List String := []

/-- `machineFriendlyName`: the rule id derived from the display name by
lowercasing and replacing every space with a hyphen. -/
def machineFriendlyName (inp : String) : String :=
  goReplaceChar (goToLower inp) ' ' '-'

/-- `checks.NewCheck`. -/
def NewCheck (name targetType comment : String) (optional : Bool) : Check :=
  { Name := name, ID := machineFriendlyName name, TargetType := targetType,
    Comment := comment, Optional := optional }

/-- `checks.CheckFunc`: a rule function, returning a score and a Go error. -/
abbrev CheckFunc (T : Type) := T → TestScore × Option String

/-- `checks.GenCheck`: rule metadata paired with its function. -/
structure GenCheck (T : Type) where
  Check : Check
  Fn : CheckFunc T

/-- `Checks.isEnabled`: a rule is registered for execution unless its id is
in the ignored-rule set. -/
def configEnables (cnf : Config) (check : Check) : Bool :=
  !(cnf.IgnoredTests.contains check.ID)

/-- `checks.reg`: build the check, append it to the all-rules listing, and
(unless ignored by run configuration) write it into the per-kind execution
map under its derived id. -/
def reg {T : Type} (cnf : Config) (targetType name comment : String)
    (optional : Bool) (fn : CheckFunc T) (all : List Check)
    (mp : GoMap (GenCheck T)) : List Check × GoMap (GenCheck T) :=
  let ch := NewCheck name targetType comment optional
  let check : GenCheck T := ⟨ch, fn⟩
  let all := all ++ [check.Check]
  if !(configEnables cnf check.Check) then
    (all, mp)
  else
    (all, goInsert mp (machineFriendlyName ch.Name) check)

end checks

/-- `checks.Checks`: the kind-indexed rule catalog. -/
structure Checks where
  cnf : checks.Config := {}
  all : List Check := []
  metas : checks.GoMap (checks.GenCheck BothMeta) := []
  pods : checks.GoMap (checks.GenCheck PodSpecer) := []
  services : checks.GoMap (checks.GenCheck Service) := []
  statefulsets : checks.GoMap (checks.GenCheck StatefulSet) := []
  deployments : checks.GoMap (checks.GenCheck Deployment) := []
  networkpolicies : checks.GoMap (checks.GenCheck NetworkPolicy) := []
  ingresses : checks.GoMap (checks.GenCheck Ingress) := []
  cronjobs : checks.GoMap (checks.GenCheck CronJob) := []
  horizontalPodAutoscalers : checks.GoMap (checks.GenCheck HpaTargeter) := []
  poddisruptionbudgets : checks.GoMap (checks.GenCheck PodDisruptionBudget) := []

/-- `RegisterDeploymentCheck`. -/
def Checks.RegisterDeploymentCheck (c : Checks) (name comment : String)
    (fn : checks.CheckFunc Deployment) : Checks :=
  let r := checks.reg c.cnf "Deployment" name comment false fn c.all
    c.deployments
  { c with all := r.1, deployments := r.2 }

/-- `RegisterStatefulSetCheck`. -/
def Checks.RegisterStatefulSetCheck (c : Checks) (name comment : String)
    (fn : checks.CheckFunc StatefulSet) : Checks :=
  let r := checks.reg c.cnf "StatefulSet" name comment false fn c.all
    c.statefulsets
  { c with all := r.1, statefulsets := r.2 }

/-- `RegisterPodCheck`. -/
def Checks.RegisterPodCheck (c : Checks) (name comment : String)
    (fn : checks.CheckFunc PodSpecer) : Checks :=
  let r := checks.reg c.cnf "Pod" name comment false fn c.all c.pods
  { c with all := r.1, pods := r.2 }

/-- `RegisterOptionalPodCheck`. -/
def Checks.RegisterOptionalPodCheck (c : Checks) (name comment : String)
    (fn : checks.CheckFunc PodSpecer) : Checks :=
  let r := checks.reg c.cnf "Pod" name comment true fn c.all c.pods
  { c with all := r.1, pods := r.2 }

/-! ## PodDisruptionBudget coverage (score/disruptionbudget) -/

namespace disruptionbudget

/-- `disruptionbudget.Options`. -/
structure Options where
  Namespace : String := ""
deriving DecidableEq, Repr

/-- The loop of `hasMatching`, carrying the accumulated list of
namespace-mismatch namespaces.  A selector parse failure is returned as an
error; a budget whose selector matches in the resolved namespace returns a
match; label-matching budgets of other namespaces are recorded and the scan
continues. -/
def hasMatchingLoop (options : Options) (namespc : String)
    (labels : LabelMap) :
    List PodDisruptionBudget → List String → Bool × String × Option String
  | [], mismatches =>
    if mismatches.isEmpty then
      (false, "", none)
    else
      (false,
        "A matching budget was found, but in a different namespace. expected='"
          ++ namespc ++ "' got='[" ++ String.intercalate " " mismatches
          ++ "]'",
        none)
  | budget :: rest, mismatches =>
    match labelSelectorAsSelector budget.PodDisruptionBudgetSelector with
    | .error e => (false, "", some ("failed to create selector: " ++ e))
    | .ok selector =>
      let budgetNamespace := resolveNs budget.Namespace options.Namespace
      if !(selectorMatches selector labels) then
        hasMatchingLoop options namespc labels rest mismatches
      else if budgetNamespace ≠ namespc then
        hasMatchingLoop options namespc labels rest
          (mismatches ++ [budgetNamespace])
      else
        (true, "", none)

/-- `disruptionbudget.hasMatching`. -/
def hasMatching (budgets : List PodDisruptionBudget) (namespc : String)
    (labels : LabelMap) (options : Options) : Bool × String × Option String :=
  hasMatchingLoop options (resolveNs namespc options.Namespace) labels
    budgets []

/-- The guard `spec.Replicas != nil && *spec.Replicas < 2` shared by the
two has-PodDisruptionBudget checks. -/
def replicasBelowTwo : Option Int → Bool
  | some r => r < 2
  | none => false

/-- `disruptionbudget.statefulSetHas`: skip StatefulSets with an explicit
replica count below 2, otherwise grade by PDB coverage, propagating
`hasMatching` errors. -/
def statefulSetHas (budgets : List PodDisruptionBudget) (options : Options)
    (statefulset : StatefulSet) : TestScore × Option String :=
  if replicasBelowTwo statefulset.Spec.Replicas then
    (TestScore.AddComment { Skipped := true } ""
      "Skipped because the statefulset has less than 2 replicas" "", none)
  else
    match hasMatching budgets statefulset.metadata.Namespace
        statefulset.Spec.Template.Labels options with
    | (_, _, some e) => ({}, some e)
    | (true, _, none) => ({ Grade := .allOK }, none)
    | (false, comment, none) =>
      (TestScore.AddComment { Grade := .critical } ""
        "No matching PodDisruptionBudget was found"
        ("It's recommended to define a PodDisruptionBudget to avoid unexpected downtime during Kubernetes maintenance operations, such as when draining a node. "
          ++ comment), none)

/-- `disruptionbudget.deploymentHas`: the Deployment twin of
`statefulSetHas`. -/
def deploymentHas (budgets : List PodDisruptionBudget) (options : Options)
    (deployment : Deployment) : TestScore × Option String :=
  if replicasBelowTwo deployment.Spec.Replicas then
    (TestScore.AddComment { Skipped := true } ""
      "Skipped because the deployment has less than 2 replicas" "", none)
  else
    match hasMatching budgets deployment.metadata.Namespace
        deployment.Spec.Template.Labels options with
    | (_, _, some e) => ({}, some e)
    | (true, _, none) => ({ Grade := .allOK }, none)
    | (false, comment, none) =>
      (TestScore.AddComment { Grade := .critical } ""
        "No matching PodDisruptionBudget was found"
        ("It's recommended to define a PodDisruptionBudget to avoid unexpected downtime during Kubernetes maintenance operations, such as when draining a node. "
          ++ comment), none)

end disruptionbudget

/-! ## NetworkPolicy coverage (score/networkpolicy) -/

namespace networkpolicy

/-- `networkpolicy.Options`. -/
structure Options where
  Namespace : String := ""
deriving DecidableEq, Repr

/-- One iteration of the netpol loop in `podHasNetworkPolicy`: given the
accumulated (ingress, egress) coverage flags, a policy in another
namespace, or with an unparsable or non-matching selector, leaves them
unchanged; a matching policy with an empty `policyTypes` covers Ingress
unconditionally and Egress exactly when its Egress rule block is
non-empty; otherwise the listed policy types are covered. -/
def netpolFlagsStep (options : Options) (pod : PodTemplateSpec)
    (flags : Bool × Bool) (n : NetworkPolicy) : Bool × Bool :=
  let podNamespace := resolveNs pod.Namespace options.Namespace
  let netPolNamespace := resolveNs n.metadata.Namespace options.Namespace
  if podNamespace ≠ netPolNamespace then
    flags
  else
    match labelSelectorAsSelector (some n.Spec.PodSelector) with
    | .error _ => flags
    | .ok selector =>
      if selectorMatches selector pod.Labels then
        if n.Spec.PolicyTypes.isEmpty then
          (true, flags.2 || !n.Spec.Egress.isEmpty)
        else
          (flags.1 || n.Spec.PolicyTypes.contains PolicyTypeIngress,
           flags.2 || n.Spec.PolicyTypes.contains PolicyTypeEgress)
      else
        flags

/-- `networkpolicy.podHasNetworkPolicy`: fold the coverage flags over all
policies, then grade AllOK / Warning / Critical. -/
def podHasNetworkPolicy (allNetpols : List NetworkPolicy)
    (options : Options) (ps : PodSpecer) : TestScore × Option String :=
  let pod := ps.GetPodTemplateSpec
  let flags := allNetpols.foldl (netpolFlagsStep options pod) (false, false)
  let hasMatchingIngressNetpol := flags.1
  let hasMatchingEgressNetpol := flags.2
  if hasMatchingEgressNetpol && hasMatchingIngressNetpol then
    ({ Grade := .allOK }, none)
  else if hasMatchingEgressNetpol && !hasMatchingIngressNetpol then
    (TestScore.AddComment { Grade := .warning } ""
      "The pod does not have a matching ingress NetworkPolicy"
      "Add a ingress policy to the pods NetworkPolicy", none)
  else if hasMatchingIngressNetpol && !hasMatchingEgressNetpol then
    (TestScore.AddComment { Grade := .warning } ""
      "The pod does not have a matching egress NetworkPolicy"
      "Add a egress policy to the pods NetworkPolicy", none)
  else
    (TestScore.AddComment { Grade := .critical } ""
      "The pod does not have a matching NetworkPolicy"
      "Create a NetworkPolicy that targets this pod to control who/what can communicate with this pod. Note, this feature needs to be supported by the CNI implementation used in the Kubernetes cluster to have an effect."
      , none)

/-- `networkpolicy.networkPolicyTargetsPod`: a policy targets some Pod or
pod-template-bearing object in its (default-resolved) namespace; a selector
parse failure is treated as no match. -/
def networkPolicyTargetsPod (pods : List Pod) (podspecers : List PodSpecer)
    (options : Options) (netPol : NetworkPolicy) : TestScore × Option String :=
  let netPolNamespace := resolveNs netPol.metadata.Namespace options.Namespace
  let hasMatchPods := pods.any (fun p =>
    resolveNs p.metadata.Namespace options.Namespace == netPolNamespace &&
      (match labelSelectorAsSelector (some netPol.Spec.PodSelector) with
       | .ok selector => selectorMatches selector p.metadata.Labels
       | .error _ => false))
  let hasMatch := hasMatchPods || podspecers.any (fun p =>
    resolveNs p.GetObjectMeta.Namespace options.Namespace ==
        netPolNamespace &&
      (match labelSelectorAsSelector (some netPol.Spec.PodSelector) with
       | .ok selector => selectorMatches selector p.GetPodTemplateSpec.Labels
       | .error _ => false))
  if hasMatch then
    ({ Grade := .allOK }, none)
  else
    (TestScore.AddComment { Grade := .critical } ""
      "The NetworkPolicies selector doesn't match any pods" "", none)

end networkpolicy

/-! ## HorizontalPodAutoscaler target resolution (score/hpa) -/

namespace hpa

/-- `hpa.Options`. -/
structure Options where
  AllTargetableObjs : List BothMeta := []
  Namespace : String := ""
deriving DecidableEq, Repr

/-- `hpa.hpaHasTarget`: the HPA target reference resolves when some object
has equal apiVersion, kind and name (all compared exactly) and the same
default-resolved namespace. -/
def hpaHasTarget (options : Options) (hp : HpaTargeter) :
    TestScore × Option String :=
  let targetRef := hp.HpaTarget
  let hasTarget := options.AllTargetableObjs.any (fun t =>
    let hpaNamespace := resolveNs hp.GetObjectMeta.Namespace options.Namespace
    let namespc := resolveNs t.ObjectMeta.Namespace options.Namespace
    t.TypeMeta.APIVersion == targetRef.APIVersion &&
      t.TypeMeta.Kind == targetRef.Kind &&
      t.ObjectMeta.Name == targetRef.Name &&
      namespc == hpaNamespace)
  if hasTarget then
    ({ Grade := .allOK }, none)
  else
    (TestScore.AddComment { Grade := .critical } ""
      "The HPA target does not match anything" "", none)

end hpa

/-! ## Deployment replica advice (score/deployment) -/

namespace deployment

/-- `deployment.Options`. -/
structure Options where
  Namespace : String := ""
deriving DecidableEq, Repr

/-- The `svcsInNamespace` index of `deploymentReplicas`, read back at one
namespace key: the selectors of the services whose default-resolved
namespace is `ns`, in input order. -/
def svcsInNamespace (svcs : List Service) (options : Options) (ns : String) :
    List LabelMap :=
  (svcs.filter (fun s => resolveNs s.metadata.Namespace options.Namespace
    == ns)).map (fun s => s.Spec.Selector)

/-- The `hpasInNamespace` index of `deploymentReplicas`, read back at one
namespace key: the target references of the HPAs whose default-resolved
namespace is `ns`, in input order. -/
def hpasInNamespace (hpas : List HpaTargeter) (options : Options)
    (ns : String) : List CrossVersionObjectReference :=
  (hpas.filter (fun h => resolveNs h.GetObjectMeta.Namespace options.Namespace
    == ns)).map (fun h => h.HpaTarget)

/-- `deployment.deploymentReplicas`: skipped when no Service selects the
pod template or when an HPA targets the Deployment; otherwise Warning below
2 replicas (an absent replica count defaults to 1), else AllOK. -/
def deploymentReplicas (svcs : List Service) (hpas : List HpaTargeter)
    (options : Options) (deployment : Deployment) : TestScore × Option String :=
  let deploymentNamespace :=
    resolveNs deployment.metadata.Namespace options.Namespace
  let referencedByService :=
    (svcsInNamespace svcs options deploymentNamespace).any
      (fun svcSelector => LabelSelectorMatchesLabels svcSelector
        deployment.Spec.Template.Labels)
  let hasHPA := (hpasInNamespace hpas options deploymentNamespace).any
    (fun hpaTarget =>
      deployment.typeMeta.APIVersion == hpaTarget.APIVersion &&
        deployment.typeMeta.Kind == hpaTarget.Kind &&
        deployment.metadata.Name == hpaTarget.Name)
  if !referencedByService then
    (TestScore.AddComment { Skipped := true } ""
      "Skipped as the Deployment is not targeted by service" "", none)
  else if hasHPA then
    (TestScore.AddComment { Skipped := true } ""
      "Skipped as the Deployment is controlled by a HorizontalPodAutoscaler"
      "", none)
  else if (deployment.Spec.Replicas.getD 1) ≥ 2 then
    ({ Grade := .allOK }, none)
  else
    (TestScore.AddComment { Grade := .warning } ""
      "Deployment few replicas"
      "Deployments targeted by Services are recommended to have at least 2 replicas to prevent unwanted downtime."
      , none)

end deployment

/-! ## Ingress backend resolution (score/ingress) -/

namespace ingress

/-- `ingress.Options`. -/
structure Options where
  Namespace : String := ""
deriving DecidableEq, Repr

/-- Whether one Service port satisfies an Ingress backend port reference:
either the backend names a positive port number that equals the service
port's number, or (falling through) the port names are equal. -/
def portSatisfies (backendPort : ServiceBackendPort) (sp : ServicePort) :
    Bool :=
  (backendPort.Number > 0 && sp.Port == backendPort.Number) ||
    sp.Name == backendPort.Name

/-- Whether some Service in the Ingress's (default-resolved) namespace
satisfies one HTTP path's backend reference. -/
def pathHasMatch (allServices : List Service) (options : Options)
    (ingressNamespace : String) (path : HTTPIngressPath) : Bool :=
  allServices.any (fun srv =>
    let serviceNamespace := resolveNs srv.metadata.Namespace options.Namespace
    serviceNamespace == ingressNamespace &&
      (match path.Backend.Service with
       | none => false
       | some backendService =>
         srv.metadata.Name == backendService.Name &&
           srv.Spec.Ports.any (portSatisfies backendService.Port)))

/-- The comment recorded for an unmatched path. -/
def unmatchedPathComment (path : HTTPIngressPath) : TestScoreComment :=
  match path.Backend.Service with
  | some backendService =>
    if backendService.Port.Number > 0 then
      ⟨path.Path, "No service match was found",
        "No service with name " ++ backendService.Name
          ++ " and port number " ++ toString backendService.Port.Number
          ++ " was found"⟩
    else
      ⟨path.Path, "No service match was found",
        "No service with name " ++ backendService.Name
          ++ " and port named " ++ backendService.Port.Name
          ++ " was found"⟩
  | none => ⟨path.Path, "No service match was found", ""⟩

/-- The path loop of `ingressTargetsServiceCommon` over one rule's HTTP
paths: clears the all-matched flag and records a comment for every
unmatched path. -/
def pathsStep (allServices : List Service) (options : Options)
    (ingressNamespace : String) (acc : Bool × List TestScoreComment)
    (path : HTTPIngressPath) : Bool × List TestScoreComment :=
  if pathHasMatch allServices options ingressNamespace path then
    acc
  else
    (false, acc.2 ++ [unmatchedPathComment path])

/-- The rule loop of `ingressTargetsServiceCommon`: rules without an HTTP
block are skipped. -/
def rulesStep (allServices : List Service) (options : Options)
    (ingressNamespace : String) (acc : Bool × List TestScoreComment)
    (rule : IngressRule) : Bool × List TestScoreComment :=
  match rule.HTTP with
  | none => acc
  | some http =>
    http.Paths.foldl (pathsStep allServices options ingressNamespace) acc

/-- `ingress.ingressTargetsServiceCommon`: grade AllOK when every HTTP path
of every rule resolves to a Service and port, Critical otherwise, with one
comment per unmatched path. -/
def ingressTargetsServiceCommon (ingrss : Ingress)
    (allServices : List Service) (options : Options) :
    TestScore × Option String :=
  let ingressNamespace :=
    resolveNs ingrss.GetObjectMeta.Namespace options.Namespace
  let r := ingrss.Rules.foldl
    (rulesStep allServices options ingressNamespace) (true, [])
  if r.1 then
    ({ Grade := .allOK, Comments := r.2 }, none)
  else
    ({ Grade := .critical, Comments := r.2 }, none)

end ingress

/-! ## Scoring engine (score/score.go) -/

/-- `config.RunConfiguration`, restricted to the fields the embedded code
reads.  `useIgnoreChecks`/`useOptionalChecks` stand for the Go fields
`UseIgnoreChecksAnnotation`/`UseOptionalChecksAnnotation`. -/
structure RunConfiguration where
  Namespace : String := ""
  SkipInitContainers : Bool := false
  SkipJobs : Bool := false
  EnabledOptionalTests : List String := []
  useIgnoreChecks : Bool := false
  useOptionalChecks : Bool := false

/-- Modelled from the spec: one scorecard entry — the scored object's
identity with its ordered (rule, score) results.  The scorecard container
itself (`scorecard.New`, `NewObject`, `Add`) is not among the sources; per
the spec it collects one entry per object with its (Rule, TestScore)
pairs. -/
structure ScoredObjectEntry where
  typeMeta : TypeMeta
  objectMeta : ObjectMeta
  results : List (Check × TestScore)
deriving DecidableEq, Repr

/-- Modelled from the spec: the scorecard, ordered by encounter. -/
abbrev Scorecard := List ScoredObjectEntry

namespace score

/-- One object's run of a check list in an error-checked loop of `Score`:
`if err != nil { return nil, err }` aborts on the first failing rule
function, otherwise every (check, score) pair is collected. -/
def runChecksStrict {T : Type} (tests : List (checks.GenCheck T)) (obj : T) :
    Except String (List (Check × TestScore)) :=
  match tests with
  | [] => .ok []
  | t :: ts =>
    let r := t.Fn obj
    match r.2 with
    | some e => .error e
    | none =>
      match runChecksStrict ts obj with
      | .error e => .error e
      | .ok rest => .ok ((t.Check, r.1) :: rest)

/-- One object's run of a check list in the two loops of `Score` that
discard the error (`score, _ := test.Fn(...)`): every returned score is
recorded, errors notwithstanding. -/
def runChecksLenient {T : Type} (tests : List (checks.GenCheck T))
    (obj : T) : List (Check × TestScore) :=
  tests.map (fun t => (t.Check, (t.Fn obj).1))

/-- An error-checked per-kind loop of `Score`. -/
def scoreKindStrict {T : Type} (tests : List (checks.GenCheck T))
    (tm : T → TypeMeta) (om : T → ObjectMeta) (objs : List T) :
    Except String (List ScoredObjectEntry) :=
  match objs with
  | [] => .ok []
  | o :: os =>
    match runChecksStrict tests o with
    | .error e => .error e
    | .ok rs =>
      match scoreKindStrict tests tm om os with
      | .error e => .error e
      | .ok rest => .ok (⟨tm o, om o, rs⟩ :: rest)

/-- The `podSpeccer` wrapper built by the bare-Pod loop of `Score`: the
pod's metadata doubles as the template metadata. -/
def podSpeccerOfPod (pod : Pod) : PodSpecer :=
  { typeMeta := pod.typeMeta, objectMeta := pod.metadata,
    spec := { metadata := pod.metadata, spec := pod.spec } }

/-- `score.Score`: iterate every object kind in the fixed order of the
source; rule errors abort the pass in every loop except the bare-Pod and
pod-template (PodSpeccers) loops, which discard them; Jobs and CronJobs
can be globally skipped by run configuration. -/
def Score (allObjects : AllTypes) (allChecks : Checks)
    (runConfig : RunConfiguration) : Except String Scorecard := do
  let ingressScores ← scoreKindStrict (checks.goValues allChecks.ingresses)
    (fun i => i.typeMeta) (fun i => i.metadata) allObjects.ingresses
  let metaScores ← scoreKindStrict (checks.goValues allChecks.metas)
    (fun m => m.TypeMeta) (fun m => m.ObjectMeta) allObjects.metas
  let podScores := allObjects.pods.map (fun pod =>
    ScoredObjectEntry.mk pod.typeMeta pod.metadata
      (runChecksLenient (checks.goValues allChecks.pods)
        (podSpeccerOfPod pod)))
  let podspecScores := (allObjects.podspeccers.filter (fun p =>
      !(p.GetTypeMeta.Kind == "Job" && runConfig.SkipJobs))).map (fun p =>
    ScoredObjectEntry.mk p.GetTypeMeta p.GetObjectMeta
      (runChecksLenient (checks.goValues allChecks.pods) p))
  let serviceScores ← scoreKindStrict (checks.goValues allChecks.services)
    (fun s => s.typeMeta) (fun s => s.metadata) allObjects.services
  let statefulsetScores ← scoreKindStrict
    (checks.goValues allChecks.statefulsets)
    (fun s => s.typeMeta) (fun s => s.metadata) allObjects.statefulsets
  let deploymentScores ← scoreKindStrict
    (checks.goValues allChecks.deployments)
    (fun d => d.typeMeta) (fun d => d.metadata) allObjects.deployments
  let netpolScores ← scoreKindStrict
    (checks.goValues allChecks.networkpolicies)
    (fun n => n.typeMeta) (fun n => n.metadata) allObjects.networkpolicies
  let cronjobScores ← (if runConfig.SkipJobs then .ok [] else
    scoreKindStrict (checks.goValues allChecks.cronjobs)
      (fun c => c.typeMeta) (fun c => c.objectMeta) allObjects.cronjobs)
  let hpaScores ← scoreKindStrict
    (checks.goValues allChecks.horizontalPodAutoscalers)
    (fun h => h.GetTypeMeta) (fun h => h.GetObjectMeta)
    allObjects.horizontalPodAutoscalers
  let pdbScores ← scoreKindStrict
    (checks.goValues allChecks.poddisruptionbudgets)
    (fun b => b.typeMeta) (fun b => b.metadata)
    allObjects.poddisruptionbudgets
  .ok (ingressScores ++ metaScores ++ podScores ++ podspecScores ++
    serviceScores ++ statefulsetScores ++ deploymentScores ++ netpolScores
    ++ cronjobScores ++ hpaScores ++ pdbScores)

end score

/-! ## Claim-side predicate and concrete fixtures -/

/-- Claim-side predicate, following the spec's words for the HPA target
match: equal apiVersion and name, kind equal under case-insensitive
comparison, and equal namespaces after default substitution.  It is
compared against the behaviour of `hpa.hpaHasTarget`. -/
def hpaTargetMatchesSpecCI (options : hpa.Options) (hp : HpaTargeter)
    (t : BothMeta) : Prop :=
  t.TypeMeta.APIVersion = hp.HpaTarget.APIVersion ∧
  goToLower t.TypeMeta.Kind = goToLower hp.HpaTarget.Kind ∧
  t.ObjectMeta.Name = hp.HpaTarget.Name ∧
  resolveNs t.ObjectMeta.Namespace options.Namespace =
    resolveNs hp.GetObjectMeta.Namespace options.Namespace

/-- A mandatory check fixture. -/
def fixtureCheck : Check :=
  { Name := "Container Resources", ID := "container-resources",
    TargetType := "Pod" }

/-- An optional check fixture. -/
def fixtureOptCheck : Check :=
  { Name := "Container Resource Requests Equal Limits",
    ID := "container-resource-requests-equal-limits", TargetType := "Pod",
    Optional := true }

/-- A pod check whose rule function always fails. -/
def failingPodCheck : checks.GenCheck PodSpecer :=
  ⟨fixtureCheck, fun _ => ({}, some "boom")⟩

/-- A deployment check whose rule function always fails. -/
def failingDeploymentCheck : checks.GenCheck Deployment :=
  ⟨fixtureCheck, fun _ => ({}, some "boom")⟩

/-- A PodDisruptionBudget whose selector does not parse: an `In`
requirement with an empty value set. -/
def badPdb : PodDisruptionBudget :=
  { selector := some { matchExpressions := [⟨"app", "In", []⟩] } }

/-- A NetworkPolicy whose pod selector does not parse: an `In`
requirement with an empty value set. -/
def badNetpol : NetworkPolicy :=
  { Spec := { PodSelector := { matchExpressions := [⟨"app", "In", []⟩] } } }

/-- A StatefulSet fixture with no explicit replica count. -/
def ssNoReplicas : StatefulSet := { metadata := { Name := "ss" } }

/-- An HPA fixture whose target names the kind in lowercase. -/
def hpaLowercaseKind : HpaTargeter :=
  { hpaTarget :=
      { Kind := "deployment", Name := "foo", APIVersion := "apps/v1" } }

/-- A Deployment identity matching `hpaLowercaseKind`'s target except for
the kind's case. -/
def deploymentMeta : BothMeta :=
  { TypeMeta := { Kind := "Deployment", APIVersion := "apps/v1" }
    ObjectMeta := { Name := "foo" } }

/-- A Service named svc exposing only the unnamed port 80. -/
def svcUnnamedPort80 : Service :=
  { metadata := { Name := "svc" }
    Spec := { Ports := [{ Name := "", Port := 80 }] } }

/-- A Service named svc exposing only port 80 under the name http. -/
def svcNamedPort80 : Service :=
  { metadata := { Name := "svc" }
    Spec := { Ports := [{ Name := "http", Port := 80 }] } }

/-- An Ingress backend referencing Service svc by port number 8080. -/
def backendSvc8080 : IngressServiceBackend :=
  { Name := "svc", Port := { Name := "", Number := 8080 } }

/-- An HTTP path with the svc:8080 backend. -/
def pathSvc8080 : HTTPIngressPath :=
  { Path := "/x", Backend := { Service := some backendSvc8080 } }

/-- An Ingress with one HTTP path referencing Service svc by port number
8080. -/
def ingressPort8080 : Ingress :=
  { rules := [{ HTTP := some { Paths := [pathSvc8080] } }] }

/-- A NetworkPolicy with empty policyTypes, one egress rule, and a pod
selector app=foo, in namespace ns. -/
def netpolEgressOnly : NetworkPolicy :=
  { metadata := { Namespace := "ns" }
    Spec :=
      { PodSelector := { matchLabels := [("app", "foo")] }
        Egress := [()], PolicyTypes := [] } }

/-- A pod-template-bearing fixture labelled app=foo in namespace ns. -/
def podSpecerAppFoo : PodSpecer :=
  { spec :=
      { metadata := { Namespace := "ns", Labels := [("app", "foo")] } } }

/-- A Deployment fixture with one replica in namespace ns, template
labelled app=d. -/
def deploymentOneReplica : Deployment :=
  { typeMeta := { Kind := "Deployment", APIVersion := "apps/v1" }
    metadata := { Name := "d", Namespace := "ns" }
    Spec :=
      { Replicas := some 1
        Template := { metadata := { Labels := [("app", "d")] } } } }

/-- A Service in namespace ns selecting app=d. -/
def svcSelectingAppD : Service :=
  { metadata := { Namespace := "ns" }
    Spec := { Selector := [("app", "d")] } }

/-- Statement-side predicate for the scoring engine's error handling:
some rule invocation of the error-checked loops of `Score` (Ingresses,
Metas, Services, StatefulSets, Deployments, NetworkPolicies, CronJobs,
HorizontalPodAutoscalers, PodDisruptionBudgets) returns the error `e`.
The CronJob disjunct requires Jobs not to be globally skipped, since
`Score` never invokes the CronJob checks under `SkipJobs`. -/
def strictLoopError (allObjects : AllTypes) (allChecks : Checks)
    (runConfig : RunConfiguration) (e : String) : Prop :=
  (∃ o ∈ allObjects.ingresses,
    ∃ t ∈ checks.goValues allChecks.ingresses, (t.Fn o).2 = some e) ∨
  (∃ o ∈ allObjects.metas,
    ∃ t ∈ checks.goValues allChecks.metas, (t.Fn o).2 = some e) ∨
  (∃ o ∈ allObjects.services,
    ∃ t ∈ checks.goValues allChecks.services, (t.Fn o).2 = some e) ∨
  (∃ o ∈ allObjects.statefulsets,
    ∃ t ∈ checks.goValues allChecks.statefulsets, (t.Fn o).2 = some e) ∨
  (∃ o ∈ allObjects.deployments,
    ∃ t ∈ checks.goValues allChecks.deployments, (t.Fn o).2 = some e) ∨
  (∃ o ∈ allObjects.networkpolicies,
    ∃ t ∈ checks.goValues allChecks.networkpolicies, (t.Fn o).2 = some e) ∨
  (runConfig.SkipJobs = false ∧ ∃ o ∈ allObjects.cronjobs,
    ∃ t ∈ checks.goValues allChecks.cronjobs, (t.Fn o).2 = some e) ∨
  (∃ o ∈ allObjects.horizontalPodAutoscalers,
    ∃ t ∈ checks.goValues allChecks.horizontalPodAutoscalers,
      (t.Fn o).2 = some e) ∨
  (∃ o ∈ allObjects.poddisruptionbudgets,
    ∃ t ∈ checks.goValues allChecks.poddisruptionbudgets,
      (t.Fn o).2 = some e)

/-! ## Claim theorems -/

/-- C1: evaluation of `isEnabled` at the failing inputs.  Under the default
annotation processing configuration, a pod-template directive annotation
`kube-score/container-resources: allow` makes the mandatory check
container-resources SKIPPED — the allow directive makes `isIn` answer true
for the ignore-list membership test, so the first ignore branch fires —
and a `deny` directive leaves the same mandatory check ENABLED — the
directive makes both membership tests answer false, and the decision falls
through to the run-by-default case.  This is the opposite of the
documented allow → run / deny → skip semantics. -/
theorem c1_code_evaluation :
    isEnabled {} [] fixtureCheck []
      (some [("kube-score/container-resources", "allow")]) = false ∧
    isEnabled {} [] fixtureCheck []
      (some [("kube-score/container-resources", "deny")]) = true := by
  exact ⟨by decide, by decide⟩

/-- C4 counterexample: the HPA target reference with kind deployment and
an object of kind Deployment match under the spec's case-insensitive kind
comparison, yet `hpaHasTarget` grades Critical, not AllOK. -/
theorem c4_counterexample :
    hpaTargetMatchesSpecCI { AllTargetableObjs := [deploymentMeta] }
      hpaLowercaseKind deploymentMeta ∧
    (hpa.hpaHasTarget { AllTargetableObjs := [deploymentMeta] }
      hpaLowercaseKind).1.Grade = .critical := by
  constructor
  · exact ⟨rfl, by decide, rfl, rfl⟩
  · decide

/-- C4 amended: `hpaHasTarget` grades AllOK exactly when some object in
the registered target list has apiVersion, kind and name equal to the
HPA's target reference — all three under case-SENSITIVE comparison — and
the same namespace after empty namespaces on either side are replaced by
the configured default namespace; otherwise it grades Critical. -/
theorem c4_amended (options : hpa.Options) (hp : HpaTargeter) :
    ((hpa.hpaHasTarget options hp).1.Grade = .allOK ↔
      ∃ t ∈ options.AllTargetableObjs,
        t.TypeMeta.APIVersion = hp.HpaTarget.APIVersion ∧
        t.TypeMeta.Kind = hp.HpaTarget.Kind ∧
        t.ObjectMeta.Name = hp.HpaTarget.Name ∧
        resolveNs t.ObjectMeta.Namespace options.Namespace =
          resolveNs hp.GetObjectMeta.Namespace options.Namespace) ∧
    ((hpa.hpaHasTarget options hp).1.Grade = .critical ↔
      ¬∃ t ∈ options.AllTargetableObjs,
        t.TypeMeta.APIVersion = hp.HpaTarget.APIVersion ∧
        t.TypeMeta.Kind = hp.HpaTarget.Kind ∧
        t.ObjectMeta.Name = hp.HpaTarget.Name ∧
        resolveNs t.ObjectMeta.Namespace options.Namespace =
          resolveNs hp.GetObjectMeta.Namespace options.Namespace) := by
  have hiff : (options.AllTargetableObjs.any (fun t =>
      t.TypeMeta.APIVersion == hp.HpaTarget.APIVersion &&
        t.TypeMeta.Kind == hp.HpaTarget.Kind &&
        t.ObjectMeta.Name == hp.HpaTarget.Name &&
        resolveNs t.ObjectMeta.Namespace options.Namespace ==
          resolveNs hp.GetObjectMeta.Namespace options.Namespace)) = true ↔
      ∃ t ∈ options.AllTargetableObjs,
        t.TypeMeta.APIVersion = hp.HpaTarget.APIVersion ∧
        t.TypeMeta.Kind = hp.HpaTarget.Kind ∧
        t.ObjectMeta.Name = hp.HpaTarget.Name ∧
        resolveNs t.ObjectMeta.Namespace options.Namespace =
          resolveNs hp.GetObjectMeta.Namespace options.Namespace := by
    simp [List.any_eq_true, Bool.and_eq_true, and_assoc]
  unfold hpa.hpaHasTarget
  by_cases h : (options.AllTargetableObjs.any (fun t =>
      t.TypeMeta.APIVersion == hp.HpaTarget.APIVersion &&
        t.TypeMeta.Kind == hp.HpaTarget.Kind &&
        t.ObjectMeta.Name == hp.HpaTarget.Name &&
        resolveNs t.ObjectMeta.Namespace options.Namespace ==
          resolveNs hp.GetObjectMeta.Namespace options.Namespace)) = true
  · rw [hiff] at h
    simp [hiff, h, TestScore.AddComment]
  · rw [hiff] at h
    simp [hiff, h, TestScore.AddComment]

/-- Helper: the membership decision of `isIn` decomposed — either the
rule-specific directive answers, or no directive is recognised and the
comma-separated list scan answers. -/
theorem isIn_eq_true_iff (implied : List (String × List String))
    (ann : LabelMap) (csv key : String) :
    isIn implied ann csv key = true ↔
      directiveValue ann key = some true ∨
      (directiveValue ann key = none ∧
        csvContains implied csv key = true) := by
  unfold isIn
  cases h : directiveValue ann key with
  | none => simp
  | some b => cases b <;> simp

/-- C8: an optional check only ever runs when deliberately enabled — if
`isEnabled` answers true for a check marked optional, then an allow-valued
rule-specific directive is present in the pod template's or the object's
annotations, or the check id is matched by the enable-list annotation of
one of the two sources, or the id is in the run configuration's enabled
optional tests. -/
theorem c8_optional_never_runs (cfg : EnablementConfig)
    (implied : List (String × List String)) (check : Check)
    (annots : LabelMap) (childAnnots : Option LabelMap)
    (hOpt : check.Optional = true)
    (hRun : isEnabled cfg implied check annots childAnnots = true) :
    directiveValue (childAnnots.getD []) check.ID = some true ∨
    directiveValue annots check.ID = some true ∨
    csvContains implied (lookupStrD (childAnnots.getD []) optionalChecksKey)
      check.ID = true ∨
    csvContains implied (lookupStrD annots optionalChecksKey) check.ID
      = true ∨
    cfg.enabledOptionalTests.contains check.ID = true := by
  unfold isEnabled at hRun
  split_ifs at hRun with h1 h2 h3 h4 h5
  all_goals try simp at hRun
  · simp only [Bool.and_eq_true] at h2
    rcases (isIn_eq_true_iff implied (childAnnots.getD [])
        (lookupStrD (childAnnots.getD []) optionalChecksKey)
        check.ID).mp h2.2 with hd | hc
    · exact Or.inl hd
    · exact Or.inr (Or.inr (Or.inl hc.2))
  · simp only [Bool.and_eq_true] at h4
    rcases (isIn_eq_true_iff implied annots
        (lookupStrD annots optionalChecksKey) check.ID).mp h4.2 with hd | hc
    · exact Or.inr (Or.inl hd)
    · exact Or.inr (Or.inr (Or.inr (Or.inl hc.2)))
  · exact Or.inr (Or.inr (Or.inr (Or.inr h5)))

/-- C8 witness: the optional fixture check, enabled through the
pod-template enable-list annotation, satisfies the disjunction. -/
theorem c8_optional_never_runs_witness :
    fixtureOptCheck.Optional = true ∧
    isEnabled {} [] fixtureOptCheck []
      (some [("kube-score/enable",
        "container-resource-requests-equal-limits")]) = true ∧
    (directiveValue
        ((some [("kube-score/enable",
          "container-resource-requests-equal-limits")] :
            Option LabelMap).getD [])
        fixtureOptCheck.ID = some true ∨
      directiveValue [] fixtureOptCheck.ID = some true ∨
      csvContains []
        (lookupStrD ((some [("kube-score/enable",
          "container-resource-requests-equal-limits")] :
            Option LabelMap).getD []) optionalChecksKey)
        fixtureOptCheck.ID = true ∨
      csvContains [] (lookupStrD [] optionalChecksKey) fixtureOptCheck.ID
        = true ∨
      ({} : EnablementConfig).enabledOptionalTests.contains
        fixtureOptCheck.ID = true) :=
  ⟨by decide, by decide,
    c8_optional_never_runs {} [] fixtureOptCheck []
      (some [("kube-score/enable",
        "container-resource-requests-equal-limits")])
      (by decide) (by decide)⟩

/-- Helper: inserting a key absent from a Go map appends the binding. -/
theorem goInsert_of_lookup_none {v : Type} (m : checks.GoMap v) (k : String)
    (x : v) (h : checks.goLookup m k = none) :
    checks.goInsert m k x = m ++ [(k, x)] := by
  induction m with
  | nil => rfl
  | cons p rest ih =>
    obtain ⟨k0, x0⟩ := p
    by_cases hk : k0 = k
    · simp [checks.goLookup, hk] at h
    · unfold checks.goLookup at h
      rw [if_neg hk] at h
      unfold checks.goInsert
      rw [if_neg hk, ih h]
      rfl

/-- Helper: inserting at a key that only occurs as the last binding
overwrites that binding in place. -/
theorem goInsert_last {v : Type} (m : checks.GoMap v) (k : String) (a b : v)
    (h : checks.goLookup m k = none) :
    checks.goInsert (m ++ [(k, a)]) k b = m ++ [(k, b)] := by
  induction m with
  | nil => simp [checks.goInsert]
  | cons p rest ih =>
    obtain ⟨k0, x0⟩ := p
    by_cases hk : k0 = k
    · simp [checks.goLookup, hk] at h
    · unfold checks.goLookup at h
      rw [if_neg hk] at h
      show checks.goInsert ((k0, x0) :: (rest ++ [(k, a)])) k b = _
      unfold checks.goInsert
      rw [if_neg hk, ih h]
      rfl

/-- C9: registration derives the rule id from the display name via
`machineFriendlyName` (lowercase, spaces to hyphens), and registering two
rules whose names derive the same id for the same kind leaves only the
second rule's function in the execution map — the earlier binding is
overwritten in place — while the all-rules listing records both
registrations. -/
theorem c9_registration_overwrite (T : Type) (cnf : checks.Config)
    (tt n1 cm1 n2 cm2 : String) (b1 b2 : Bool) (f1 f2 : checks.CheckFunc T)
    (all0 : List Check) (mp0 : checks.GoMap (checks.GenCheck T))
    (hid : checks.machineFriendlyName n1 = checks.machineFriendlyName n2)
    (hfresh : checks.goLookup mp0 (checks.machineFriendlyName n1) = none)
    (hnotIgnored :
      cnf.IgnoredTests.contains (checks.machineFriendlyName n1) = false) :
    (checks.NewCheck n1 tt cm1 b1).ID = checks.machineFriendlyName n1 ∧
    (checks.reg cnf tt n2 cm2 b2 f2
        (checks.reg cnf tt n1 cm1 b1 f1 all0 mp0).1
        (checks.reg cnf tt n1 cm1 b1 f1 all0 mp0).2).1 =
      all0 ++ [checks.NewCheck n1 tt cm1 b1, checks.NewCheck n2 tt cm2 b2] ∧
    (checks.reg cnf tt n2 cm2 b2 f2
        (checks.reg cnf tt n1 cm1 b1 f1 all0 mp0).1
        (checks.reg cnf tt n1 cm1 b1 f1 all0 mp0).2).2 =
      mp0 ++ [(checks.machineFriendlyName n1,
        ⟨checks.NewCheck n2 tt cm2 b2, f2⟩)] := by
  have hmem : checks.machineFriendlyName n1 ∉ cnf.IgnoredTests := by
    simpa using hnotIgnored
  have hmem2 : checks.machineFriendlyName n2 ∉ cnf.IgnoredTests := by
    rwa [← hid]
  have hreg1 : checks.reg cnf tt n1 cm1 b1 f1 all0 mp0 =
      (all0 ++ [checks.NewCheck n1 tt cm1 b1],
        mp0 ++ [(checks.machineFriendlyName n1,
          ⟨checks.NewCheck n1 tt cm1 b1, f1⟩)]) := by
    simp [checks.reg, checks.configEnables, checks.NewCheck, hmem,
      goInsert_of_lookup_none mp0 _ _ hfresh]
  have hreg2 : checks.reg cnf tt n2 cm2 b2 f2
      (all0 ++ [checks.NewCheck n1 tt cm1 b1])
      (mp0 ++ [(checks.machineFriendlyName n1,
        ⟨checks.NewCheck n1 tt cm1 b1, f1⟩)]) =
      (all0 ++ [checks.NewCheck n1 tt cm1 b1, checks.NewCheck n2 tt cm2 b2],
        mp0 ++ [(checks.machineFriendlyName n1,
          ⟨checks.NewCheck n2 tt cm2 b2, f2⟩)]) := by
    have hins := goInsert_last mp0 (checks.machineFriendlyName n1)
      (⟨checks.NewCheck n1 tt cm1 b1, f1⟩ : checks.GenCheck T)
      (⟨checks.NewCheck n2 tt cm2 b2, f2⟩ : checks.GenCheck T) hfresh
    simp only [checks.NewCheck] at hins
    rw [← hid] at hins
    simp [checks.reg, checks.configEnables, checks.NewCheck, hmem, hmem2,
      ← hid, hins]
  refine ⟨rfl, ?_, ?_⟩ <;> rw [hreg1, hreg2]

/-- C9 witness: two display names Foo Bar and FOO bar derive the same id
foo-bar; the second registration overwrites the first in the Deployment
execution map while the listing keeps both. -/
theorem c9_registration_overwrite_witness :
    (checks.NewCheck "Foo Bar" "Deployment" "x" false).ID =
      checks.machineFriendlyName "Foo Bar" ∧
    (checks.reg {} "Deployment" "FOO bar" "y" false
        (fun (_ : Deployment) => ({}, some "second"))
        (checks.reg {} "Deployment" "Foo Bar" "x" false
          (fun (_ : Deployment) => ({}, none)) [] []).1
        (checks.reg {} "Deployment" "Foo Bar" "x" false
          (fun (_ : Deployment) => ({}, none)) [] []).2).1 =
      [] ++ [checks.NewCheck "Foo Bar" "Deployment" "x" false,
        checks.NewCheck "FOO bar" "Deployment" "y" false] ∧
    (checks.reg {} "Deployment" "FOO bar" "y" false
        (fun (_ : Deployment) => ({}, some "second"))
        (checks.reg {} "Deployment" "Foo Bar" "x" false
          (fun (_ : Deployment) => ({}, none)) [] []).1
        (checks.reg {} "Deployment" "Foo Bar" "x" false
          (fun (_ : Deployment) => ({}, none)) [] []).2).2 =
      [] ++ [(checks.machineFriendlyName "Foo Bar",
        ⟨checks.NewCheck "FOO bar" "Deployment" "y" false,
          fun (_ : Deployment) => ({}, some "second")⟩)] :=
  c9_registration_overwrite Deployment {} "Deployment" "Foo Bar" "x"
    "FOO bar" "y" false false (fun (_ : Deployment) => ({}, none))
    (fun _ => ({}, some "second")) [] [] (by decide) rfl rfl

/-- Helper: the replica guard holds exactly for an explicit count below 2. -/
theorem replicasBelowTwo_iff (o : Option Int) :
    disruptionbudget.replicasBelowTwo o = true ↔
      ∃ r, o = some r ∧ r < 2 := by
  cases o <;> simp [disruptionbudget.replicasBelowTwo]

/-- Helper: when every budget's selector parses, the `hasMatching` scan
returns no error and finds a match exactly when some budget's selector
matches the labels in the queried (already resolved) namespace. -/
theorem hasMatchingLoop_spec (options : disruptionbudget.Options)
    (ns : String) (labels : LabelMap) (budgets : List PodDisruptionBudget)
    (mismatches : List String)
    (h : ∀ b ∈ budgets, ∃ sel,
      labelSelectorAsSelector b.PodDisruptionBudgetSelector = .ok sel) :
    (disruptionbudget.hasMatchingLoop options ns labels budgets
      mismatches).2.2 = none ∧
    ((disruptionbudget.hasMatchingLoop options ns labels budgets
        mismatches).1 = true ↔
      ∃ b ∈ budgets, ∃ sel,
        labelSelectorAsSelector b.PodDisruptionBudgetSelector = .ok sel ∧
        selectorMatches sel labels = true ∧
        resolveNs b.Namespace options.Namespace = ns) := by
  induction budgets generalizing mismatches with
  | nil =>
    unfold disruptionbudget.hasMatchingLoop
    by_cases hm : mismatches.isEmpty <;> simp [hm]
  | cons b rest ih =>
    obtain ⟨sel, hsel⟩ := h b (List.mem_cons_self b rest)
    have hrest : ∀ x ∈ rest, ∃ s,
        labelSelectorAsSelector x.PodDisruptionBudgetSelector = .ok s :=
      fun x hx => h x (List.mem_cons_of_mem b hx)
    unfold disruptionbudget.hasMatchingLoop
    rw [hsel]
    by_cases hmatch : selectorMatches sel labels = true
    · by_cases hns : resolveNs b.Namespace options.Namespace = ns
      · simp [hmatch, hns, hsel]
      · simp only [hmatch, Bool.not_true, Bool.false_eq_true, if_false,
          ne_eq, hns, not_false_eq_true, if_true]
        obtain ⟨h1, h2⟩ := ih (mismatches ++
          [resolveNs b.Namespace options.Namespace]) hrest
        refine ⟨h1, h2.trans ?_⟩
        constructor
        · rintro ⟨x, hx, hw⟩
          exact ⟨x, List.mem_cons_of_mem b hx, hw⟩
        · rintro ⟨x, hx, hw⟩
          rcases List.mem_cons.mp hx with rfl | hx2
          · obtain ⟨s, hs, hm, hn⟩ := hw
            rw [hsel] at hs
            cases hs
            exact absurd hn hns
          · exact ⟨x, hx2, hw⟩
    · have hm : selectorMatches sel labels = false := by
        simpa using hmatch
      simp only [hm, Bool.not_false, if_true]
      obtain ⟨h1, h2⟩ := ih mismatches hrest
      refine ⟨h1, h2.trans ?_⟩
      constructor
      · rintro ⟨x, hx, hw⟩
        exact ⟨x, List.mem_cons_of_mem b hx, hw⟩
      · rintro ⟨x, hx, hw⟩
        rcases List.mem_cons.mp hx with rfl | hx2
        · obtain ⟨s, hs, hmm, hn⟩ := hw
          rw [hsel] at hs
          cases hs
          rw [hmm] at hm
          exact Bool.noConfusion hm
        · exact ⟨x, hx2, hw⟩

/-- Helper: the skip/grade behaviour of `statefulSetHas` when all budget
selectors parse. -/
theorem statefulSetHas_spec (budgets : List PodDisruptionBudget)
    (options : disruptionbudget.Options) (ss : StatefulSet)
    (h : ∀ b ∈ budgets, ∃ sel,
      labelSelectorAsSelector b.PodDisruptionBudgetSelector = .ok sel) :
    (disruptionbudget.statefulSetHas budgets options ss).2 = none ∧
    ((disruptionbudget.statefulSetHas budgets options ss).1.Skipped = true ↔
      ∃ r, ss.Spec.Replicas = some r ∧ r < 2) ∧
    (ss.Spec.Replicas = none →
      ¬(∃ b ∈ budgets, ∃ sel,
        labelSelectorAsSelector b.PodDisruptionBudgetSelector = .ok sel ∧
        selectorMatches sel ss.Spec.Template.Labels = true ∧
        resolveNs b.Namespace options.Namespace =
          resolveNs ss.metadata.Namespace options.Namespace) →
      (disruptionbudget.statefulSetHas budgets options ss).1.Grade =
        .critical) := by
  have hspec : (disruptionbudget.hasMatching budgets ss.metadata.Namespace
      ss.Spec.Template.Labels options).2.2 = none ∧
      ((disruptionbudget.hasMatching budgets ss.metadata.Namespace
        ss.Spec.Template.Labels options).1 = true ↔
      ∃ b ∈ budgets, ∃ sel,
        labelSelectorAsSelector b.PodDisruptionBudgetSelector = .ok sel ∧
        selectorMatches sel ss.Spec.Template.Labels = true ∧
        resolveNs b.Namespace options.Namespace =
          resolveNs ss.metadata.Namespace options.Namespace) :=
    hasMatchingLoop_spec options
      (resolveNs ss.metadata.Namespace options.Namespace)
      ss.Spec.Template.Labels budgets [] h
  unfold disruptionbudget.statefulSetHas
  by_cases hskip : disruptionbudget.replicasBelowTwo ss.Spec.Replicas = true
  · simp only [hskip, if_true]
    refine ⟨trivial, ?_, ?_⟩
    · simpa [TestScore.AddComment] using (replicasBelowTwo_iff _).mp hskip
    · intro hrep
      rw [hrep] at hskip
      simp [disruptionbudget.replicasBelowTwo] at hskip
  · simp only [hskip, Bool.false_eq_true, if_false]
    rcases hht : disruptionbudget.hasMatching budgets ss.metadata.Namespace
      ss.Spec.Template.Labels options with ⟨mb, mc, me⟩
    rw [hht] at hspec
    obtain ⟨hnone, hiff⟩ := hspec
    simp only at hnone
    subst hnone
    cases mb
    · refine ⟨rfl, ?_, ?_⟩
      · simp only [TestScore.AddComment]
        constructor
        · intro hcontra
          exact absurd hcontra (by simp)
        · intro hex
          exact absurd ((replicasBelowTwo_iff _).mpr hex) hskip
      · intro _ _
        rfl
    · refine ⟨rfl, ?_, ?_⟩
      · constructor
        · intro hcontra
          exact absurd hcontra (by simp)
        · intro hex
          exact absurd ((replicasBelowTwo_iff _).mpr hex) hskip
      · intro hrep hnomatch
        exact absurd (hiff.mp rfl) hnomatch

/-- Helper: the skip/grade behaviour of `deploymentHas` when all budget
selectors parse. -/
theorem deploymentHas_spec (budgets : List PodDisruptionBudget)
    (options : disruptionbudget.Options) (dep : Deployment)
    (h : ∀ b ∈ budgets, ∃ sel,
      labelSelectorAsSelector b.PodDisruptionBudgetSelector = .ok sel) :
    (disruptionbudget.deploymentHas budgets options dep).2 = none ∧
    ((disruptionbudget.deploymentHas budgets options dep).1.Skipped = true ↔
      ∃ r, dep.Spec.Replicas = some r ∧ r < 2) ∧
    (dep.Spec.Replicas = none →
      ¬(∃ b ∈ budgets, ∃ sel,
        labelSelectorAsSelector b.PodDisruptionBudgetSelector = .ok sel ∧
        selectorMatches sel dep.Spec.Template.Labels = true ∧
        resolveNs b.Namespace options.Namespace =
          resolveNs dep.metadata.Namespace options.Namespace) →
      (disruptionbudget.deploymentHas budgets options dep).1.Grade =
        .critical) := by
  have hspec : (disruptionbudget.hasMatching budgets dep.metadata.Namespace
      dep.Spec.Template.Labels options).2.2 = none ∧
      ((disruptionbudget.hasMatching budgets dep.metadata.Namespace
        dep.Spec.Template.Labels options).1 = true ↔
      ∃ b ∈ budgets, ∃ sel,
        labelSelectorAsSelector b.PodDisruptionBudgetSelector = .ok sel ∧
        selectorMatches sel dep.Spec.Template.Labels = true ∧
        resolveNs b.Namespace options.Namespace =
          resolveNs dep.metadata.Namespace options.Namespace) :=
    hasMatchingLoop_spec options
      (resolveNs dep.metadata.Namespace options.Namespace)
      dep.Spec.Template.Labels budgets [] h
  unfold disruptionbudget.deploymentHas
  by_cases hskip : disruptionbudget.replicasBelowTwo dep.Spec.Replicas = true
  · simp only [hskip, if_true]
    refine ⟨trivial, ?_, ?_⟩
    · simpa [TestScore.AddComment] using (replicasBelowTwo_iff _).mp hskip
    · intro hrep
      rw [hrep] at hskip
      simp [disruptionbudget.replicasBelowTwo] at hskip
  · simp only [hskip, Bool.false_eq_true, if_false]
    rcases hht : disruptionbudget.hasMatching budgets dep.metadata.Namespace
      dep.Spec.Template.Labels options with ⟨mb, mc, me⟩
    rw [hht] at hspec
    obtain ⟨hnone, hiff⟩ := hspec
    simp only at hnone
    subst hnone
    cases mb
    · refine ⟨rfl, ?_, ?_⟩
      · simp only [TestScore.AddComment]
        constructor
        · intro hcontra
          exact absurd hcontra (by simp)
        · intro hex
          exact absurd ((replicasBelowTwo_iff _).mpr hex) hskip
      · intro _ _
        rfl
    · refine ⟨rfl, ?_, ?_⟩
      · constructor
        · intro hcontra
          exact absurd hcontra (by simp)
        · intro hex
          exact absurd ((replicasBelowTwo_iff _).mpr hex) hskip
      · intro hrep hnomatch
        exact absurd (hiff.mp rfl) hnomatch

/-- C10: for every StatefulSet and every Deployment (given that every
budget's selector parses), the has-PodDisruptionBudget check returns no
error, is skipped exactly when spec.replicas is explicitly set and below
2 — in particular an absent replica count does not skip — and with an
absent replica count it grades Critical when no budget's selector matches
the pod template's labels in the same default-resolved namespace. -/
theorem c10_pdb_skip_iff (budgets : List PodDisruptionBudget)
    (options : disruptionbudget.Options) (ss : StatefulSet)
    (dep : Deployment)
    (h : ∀ b ∈ budgets, ∃ sel,
      labelSelectorAsSelector b.PodDisruptionBudgetSelector = .ok sel) :
    ((disruptionbudget.statefulSetHas budgets options ss).2 = none ∧
      ((disruptionbudget.statefulSetHas budgets options ss).1.Skipped =
          true ↔ ∃ r, ss.Spec.Replicas = some r ∧ r < 2) ∧
      (ss.Spec.Replicas = none →
        ¬(∃ b ∈ budgets, ∃ sel,
          labelSelectorAsSelector b.PodDisruptionBudgetSelector = .ok sel ∧
          selectorMatches sel ss.Spec.Template.Labels = true ∧
          resolveNs b.Namespace options.Namespace =
            resolveNs ss.metadata.Namespace options.Namespace) →
        (disruptionbudget.statefulSetHas budgets options ss).1.Grade =
          .critical)) ∧
    ((disruptionbudget.deploymentHas budgets options dep).2 = none ∧
      ((disruptionbudget.deploymentHas budgets options dep).1.Skipped =
          true ↔ ∃ r, dep.Spec.Replicas = some r ∧ r < 2) ∧
      (dep.Spec.Replicas = none →
        ¬(∃ b ∈ budgets, ∃ sel,
          labelSelectorAsSelector b.PodDisruptionBudgetSelector = .ok sel ∧
          selectorMatches sel dep.Spec.Template.Labels = true ∧
          resolveNs b.Namespace options.Namespace =
            resolveNs dep.metadata.Namespace options.Namespace) →
        (disruptionbudget.deploymentHas budgets options dep).1.Grade =
          .critical)) :=
  ⟨statefulSetHas_spec budgets options ss h,
    deploymentHas_spec budgets options dep h⟩

/-- C10 witness: with no budgets at all, a StatefulSet without an explicit
replica count is graded Critical (not skipped), and a Deployment with
replicas 1 is skipped. -/
theorem c10_pdb_skip_iff_witness :
    (disruptionbudget.statefulSetHas [] {} ssNoReplicas).1.Grade =
      .critical ∧
    (disruptionbudget.deploymentHas [] {} deploymentOneReplica).1.Skipped =
      true :=
  ⟨(c10_pdb_skip_iff [] {} ssNoReplicas deploymentOneReplica
      (by simp)).1.2.2 rfl (by simp),
    ((c10_pdb_skip_iff [] {} ssNoReplicas deploymentOneReplica
      (by simp)).2.2.1).mpr ⟨1, rfl, by norm_num⟩⟩

/-- Helper: once both coverage flags hold they are stable under further
policies. -/
theorem netpolFlagsStep_fix (options : networkpolicy.Options)
    (pod : PodTemplateSpec) (n : NetworkPolicy) :
    networkpolicy.netpolFlagsStep options pod (true, true) n =
      (true, true) := by
  unfold networkpolicy.netpolFlagsStep
  by_cases h : resolveNs pod.Namespace options.Namespace ≠
      resolveNs n.metadata.Namespace options.Namespace
  · simp [h]
  · simp only [h, if_false, if_true]
    cases hp : labelSelectorAsSelector (some n.Spec.PodSelector) <;> simp

/-- Helper: folding any further policies from fully covered flags keeps
them fully covered. -/
theorem foldl_netpolFlagsStep_fix (options : networkpolicy.Options)
    (pod : PodTemplateSpec) (l : List NetworkPolicy) :
    l.foldl (networkpolicy.netpolFlagsStep options pod) (true, true) =
      (true, true) := by
  induction l with
  | nil => rfl
  | cons x xs ih => rw [List.foldl_cons, netpolFlagsStep_fix, ih]

/-- Helper: a policy in the pod's resolved namespace whose selector
matches, with empty policyTypes and a non-empty Egress block, sets both
coverage flags from any accumulator. -/
theorem netpolFlagsStep_sets (options : networkpolicy.Options)
    (pod : PodTemplateSpec) (n : NetworkPolicy) (sel : Selector)
    (hns : resolveNs pod.Namespace options.Namespace =
      resolveNs n.metadata.Namespace options.Namespace)
    (hsel : labelSelectorAsSelector (some n.Spec.PodSelector) = .ok sel)
    (hm : selectorMatches sel pod.Labels = true)
    (hpt : n.Spec.PolicyTypes = []) (heg : n.Spec.Egress ≠ [])
    (acc : Bool × Bool) :
    networkpolicy.netpolFlagsStep options pod acc n = (true, true) := by
  unfold networkpolicy.netpolFlagsStep
  rw [if_neg (by simp [hns])]
  rw [hsel]
  simp [hm, hpt, heg]

/-- C5: a NetworkPolicy with empty policyTypes that matches the pod in its
default-resolved namespace counts as covering Ingress unconditionally and
Egress exactly when its Egress rule block is non-empty: alone it grades
Warning (ingress only) or AllOK accordingly, and with a non-empty Egress
block its presence in any policy list forces grade AllOK. -/
theorem c5_networkpolicy_policytypes (options : networkpolicy.Options)
    (ps : PodSpecer) (n : NetworkPolicy)
    (hns : resolveNs ps.GetPodTemplateSpec.Namespace options.Namespace =
      resolveNs n.metadata.Namespace options.Namespace)
    (hsel : ∃ sel,
      labelSelectorAsSelector (some n.Spec.PodSelector) = .ok sel ∧
      selectorMatches sel ps.GetPodTemplateSpec.Labels = true)
    (hpt : n.Spec.PolicyTypes = []) :
    ((networkpolicy.podHasNetworkPolicy [n] options ps).1.Grade =
      if n.Spec.Egress.isEmpty then Grade.warning else Grade.allOK) ∧
    (∀ netpols : List NetworkPolicy, n ∈ netpols → n.Spec.Egress ≠ [] →
      (networkpolicy.podHasNetworkPolicy netpols options ps).1.Grade =
        Grade.allOK) := by
  obtain ⟨sel, hs, hm⟩ := hsel
  constructor
  · unfold networkpolicy.podHasNetworkPolicy
    have hstep : networkpolicy.netpolFlagsStep options ps.GetPodTemplateSpec
        (false, false) n = (true, !n.Spec.Egress.isEmpty) := by
      unfold networkpolicy.netpolFlagsStep
      rw [if_neg (by simp [hns])]
      rw [hs]
      simp [hm, hpt]
    simp only [List.foldl_cons, List.foldl_nil, hstep]
    cases he : n.Spec.Egress.isEmpty <;> simp [TestScore.AddComment]
  · intro netpols hmem heg
    obtain ⟨l1, l2, rfl⟩ := List.append_of_mem hmem
    unfold networkpolicy.podHasNetworkPolicy
    simp only [List.foldl_append, List.foldl_cons,
      netpolFlagsStep_sets options ps.GetPodTemplateSpec n sel hns hs hm
        hpt heg,
      foldl_netpolFlagsStep_fix]
    simp

/-- C5 witness: the egress-only fixture policy matching the fixture pod in
namespace ns yields grade AllOK. -/
theorem c5_networkpolicy_policytypes_witness :
    (networkpolicy.podHasNetworkPolicy [netpolEgressOnly] {}
      podSpecerAppFoo).1.Grade = Grade.allOK :=
  (c5_networkpolicy_policytypes {} podSpecerAppFoo netpolEgressOnly rfl
    ⟨Selector.reqs [⟨"app", SelOp.opIn, ["foo"]⟩], by rfl, by decide⟩
    rfl).2 [netpolEgressOnly] (by simp) (by decide)

/-- C6: for a Deployment with replica count 1 — when no Service in the
Deployment's default-resolved namespace has a selector matching the pod
template's labels, the Deployment Replicas check is skipped with no grade
and no error; when such a Service exists and no HPA in that namespace
targets the Deployment, the check grades Warning. -/
theorem c6_deployment_replicas (svcs : List Service)
    (hpas : List HpaTargeter) (options : deployment.Options)
    (dep : Deployment) (hrep : dep.Spec.Replicas = some 1) :
    ((¬∃ s ∈ svcs, resolveNs s.metadata.Namespace options.Namespace =
        resolveNs dep.metadata.Namespace options.Namespace ∧
        LabelSelectorMatchesLabels s.Spec.Selector
          dep.Spec.Template.Labels = true) →
      (deployment.deploymentReplicas svcs hpas options dep).1.Skipped =
        true ∧
      (deployment.deploymentReplicas svcs hpas options dep).1.Grade =
        .unset ∧
      (deployment.deploymentReplicas svcs hpas options dep).2 = none) ∧
    ((∃ s ∈ svcs, resolveNs s.metadata.Namespace options.Namespace =
        resolveNs dep.metadata.Namespace options.Namespace ∧
        LabelSelectorMatchesLabels s.Spec.Selector
          dep.Spec.Template.Labels = true) →
      (¬∃ hp ∈ hpas, resolveNs hp.GetObjectMeta.Namespace
          options.Namespace =
          resolveNs dep.metadata.Namespace options.Namespace ∧
        dep.typeMeta.APIVersion = hp.HpaTarget.APIVersion ∧
        dep.typeMeta.Kind = hp.HpaTarget.Kind ∧
        dep.metadata.Name = hp.HpaTarget.Name) →
      (deployment.deploymentReplicas svcs hpas options dep).1.Grade =
        .warning) := by
  have hsvc : ((deployment.svcsInNamespace svcs options
      (resolveNs dep.metadata.Namespace options.Namespace)).any
      (fun svcSelector => LabelSelectorMatchesLabels svcSelector
        dep.Spec.Template.Labels)) = true ↔
      ∃ s ∈ svcs, resolveNs s.metadata.Namespace options.Namespace =
        resolveNs dep.metadata.Namespace options.Namespace ∧
        LabelSelectorMatchesLabels s.Spec.Selector
          dep.Spec.Template.Labels = true := by
    simp [deployment.svcsInNamespace, List.any_map, List.any_filter,
      List.any_eq_true, Bool.and_eq_true, Function.comp, beq_iff_eq,
      and_assoc]
    constructor
    · rintro ⟨x, ⟨s, hs, hns, hsel⟩, hl⟩
      subst hsel
      exact ⟨s, hs, hns, hl⟩
    · rintro ⟨s, hs, hns, hl⟩
      exact ⟨s.Spec.Selector, ⟨s, hs, hns, rfl⟩, hl⟩
  have hhpa : ((deployment.hpasInNamespace hpas options
      (resolveNs dep.metadata.Namespace options.Namespace)).any
      (fun hpaTarget =>
        dep.typeMeta.APIVersion == hpaTarget.APIVersion &&
          dep.typeMeta.Kind == hpaTarget.Kind &&
          dep.metadata.Name == hpaTarget.Name)) = true ↔
      ∃ hp ∈ hpas, resolveNs hp.GetObjectMeta.Namespace options.Namespace =
        resolveNs dep.metadata.Namespace options.Namespace ∧
        dep.typeMeta.APIVersion = hp.HpaTarget.APIVersion ∧
        dep.typeMeta.Kind = hp.HpaTarget.Kind ∧
        dep.metadata.Name = hp.HpaTarget.Name := by
    simp [deployment.hpasInNamespace, List.any_map, List.any_filter,
      List.any_eq_true, Bool.and_eq_true, Function.comp, beq_iff_eq,
      and_assoc]
    constructor
    · rintro ⟨x, ⟨hp, hh, hns, htt⟩, h1, h2, h3⟩
      subst htt
      exact ⟨hp, hh, hns, h1, h2, h3⟩
    · rintro ⟨hp, hh, hns, h1, h2, h3⟩
      exact ⟨hp.HpaTarget, ⟨hp, hh, hns, rfl⟩, h1, h2, h3⟩
  constructor
  · intro hnosvc
    rw [← hsvc] at hnosvc
    unfold deployment.deploymentReplicas
    simp only [Bool.not_eq_true] at hnosvc
    simp [hnosvc, TestScore.AddComment]
  · intro hsome hnohpa
    rw [← hsvc] at hsome
    rw [← hhpa] at hnohpa
    unfold deployment.deploymentReplicas
    simp only [Bool.not_eq_true] at hnohpa
    simp [hsome, hnohpa, hrep, TestScore.AddComment]

/-- C6 witness: the one-replica fixture Deployment is skipped with no
services, and graded Warning when the matching fixture Service is
present. -/
theorem c6_deployment_replicas_witness :
    ((deployment.deploymentReplicas [] [] {}
        deploymentOneReplica).1.Skipped = true ∧
      (deployment.deploymentReplicas [] [] {}
        deploymentOneReplica).1.Grade = .unset ∧
      (deployment.deploymentReplicas [] [] {}
        deploymentOneReplica).2 = none) ∧
    (deployment.deploymentReplicas [svcSelectingAppD] [] {}
        deploymentOneReplica).1.Grade = .warning :=
  ⟨(c6_deployment_replicas [] [] {} deploymentOneReplica rfl).1 (by simp),
    (c6_deployment_replicas [svcSelectingAppD] [] {} deploymentOneReplica
      rfl).2 ⟨svcSelectingAppD, by simp, rfl, by decide⟩ (by simp)⟩

/-- Helper: a policy whose selector fails to parse leaves the coverage
flags unchanged. -/
theorem netpolFlagsStep_error (options : networkpolicy.Options)
    (pod : PodTemplateSpec) (n : NetworkPolicy) (acc : Bool × Bool)
    (e : String)
    (h : labelSelectorAsSelector (some n.Spec.PodSelector) = .error e) :
    networkpolicy.netpolFlagsStep options pod acc n = acc := by
  unfold networkpolicy.netpolFlagsStep
  by_cases hns : resolveNs pod.Namespace options.Namespace ≠
      resolveNs n.metadata.Namespace options.Namespace
  · simp [hns]
  · simp only [hns, if_false, if_true]
    rw [h]

/-- C3 counterexample: a PodDisruptionBudget whose selector does not parse
makes the StatefulSet has PodDisruptionBudget check return an error — the
parse failure is not degraded to "no match" on the PDB side. -/
theorem c3_counterexample :
    (∃ e, labelSelectorAsSelector badPdb.PodDisruptionBudgetSelector =
      .error e) ∧
    ((disruptionbudget.statefulSetHas [badPdb] {} ssNoReplicas).2).isSome =
      true :=
  ⟨⟨"for 'in', 'notin' operators, values set can't be empty", rfl⟩, rfl⟩

/-- C3 amended: in the NetworkPolicy checks a selector parse failure is
degraded to "no match" without aborting — a policy with an unparsable
selector can be removed from `podHasNetworkPolicy`'s input without
changing the result, and `networkPolicyTargetsPod` on such a policy
returns no error and grades Critical — but in the PodDisruptionBudget
checks a parse failure on a scanned budget is propagated as an error by
`hasMatching`, so the StatefulSet/Deployment has-PodDisruptionBudget
checks return an error instead of treating it as no match. -/
theorem c3_amended :
    (∀ (options : networkpolicy.Options) (ps : PodSpecer)
      (pre post : List NetworkPolicy) (n : NetworkPolicy) (e : String),
      labelSelectorAsSelector (some n.Spec.PodSelector) = .error e →
      networkpolicy.podHasNetworkPolicy (pre ++ n :: post) options ps =
        networkpolicy.podHasNetworkPolicy (pre ++ post) options ps) ∧
    (∀ (pods : List Pod) (podspecers : List PodSpecer)
      (options : networkpolicy.Options) (n : NetworkPolicy) (e : String),
      labelSelectorAsSelector (some n.Spec.PodSelector) = .error e →
      (networkpolicy.networkPolicyTargetsPod pods podspecers options n).2 =
        none ∧
      (networkpolicy.networkPolicyTargetsPod pods podspecers options
        n).1.Grade = .critical) ∧
    (∀ (options : disruptionbudget.Options) (ss : StatefulSet)
      (bad : PodDisruptionBudget) (rest : List PodDisruptionBudget)
      (e : String),
      labelSelectorAsSelector bad.PodDisruptionBudgetSelector = .error e →
      disruptionbudget.replicasBelowTwo ss.Spec.Replicas = false →
      (disruptionbudget.statefulSetHas (bad :: rest) options ss).2 =
        some ("failed to create selector: " ++ e)) ∧
    (∀ (options : disruptionbudget.Options) (dep : Deployment)
      (bad : PodDisruptionBudget) (rest : List PodDisruptionBudget)
      (e : String),
      labelSelectorAsSelector bad.PodDisruptionBudgetSelector = .error e →
      disruptionbudget.replicasBelowTwo dep.Spec.Replicas = false →
      (disruptionbudget.deploymentHas (bad :: rest) options dep).2 =
        some ("failed to create selector: " ++ e)) := by
  refine ⟨?_, ?_, ?_, ?_⟩
  · intro options ps pre post n e h
    have hfold : List.foldl
        (networkpolicy.netpolFlagsStep options ps.GetPodTemplateSpec)
        (false, false) (pre ++ n :: post) =
        List.foldl (networkpolicy.netpolFlagsStep options
          ps.GetPodTemplateSpec) (false, false) (pre ++ post) := by
      rw [List.foldl_append, List.foldl_cons,
        netpolFlagsStep_error options ps.GetPodTemplateSpec n _ e h,
        ← List.foldl_append]
    simp only [networkpolicy.podHasNetworkPolicy, hfold]
  · intro pods podspecers options n e h
    unfold networkpolicy.networkPolicyTargetsPod
    have h1 : (pods.any (fun p =>
        resolveNs p.metadata.Namespace options.Namespace ==
          resolveNs n.metadata.Namespace options.Namespace &&
        (match labelSelectorAsSelector (some n.Spec.PodSelector) with
         | .ok selector => selectorMatches selector p.metadata.Labels
         | .error _ => false))) = false := by
      simp [List.any_eq_false, h]
    have h2 : (podspecers.any (fun p =>
        resolveNs p.GetObjectMeta.Namespace options.Namespace ==
          resolveNs n.metadata.Namespace options.Namespace &&
        (match labelSelectorAsSelector (some n.Spec.PodSelector) with
         | .ok selector =>
           selectorMatches selector p.GetPodTemplateSpec.Labels
         | .error _ => false))) = false := by
      simp [List.any_eq_false, h]
    simp [h1, h2, TestScore.AddComment]
  · intro options ss bad rest e h hrep
    unfold disruptionbudget.statefulSetHas
    simp only [hrep, Bool.false_eq_true, if_false]
    unfold disruptionbudget.hasMatching disruptionbudget.hasMatchingLoop
    rw [h]
  · intro options dep bad rest e h hrep
    unfold disruptionbudget.deploymentHas
    simp only [hrep, Bool.false_eq_true, if_false]
    unfold disruptionbudget.hasMatching disruptionbudget.hasMatchingLoop
    rw [h]

/-- C3 amended witness: the unparsable-selector fixtures exercise all
three behaviours. -/
theorem c3_amended_witness :
    networkpolicy.podHasNetworkPolicy [badNetpol] {} podSpecerAppFoo =
      networkpolicy.podHasNetworkPolicy [] {} podSpecerAppFoo ∧
    (networkpolicy.networkPolicyTargetsPod [] [] {} badNetpol).2 = none ∧
    (disruptionbudget.statefulSetHas [badPdb] {} ssNoReplicas).2 =
      some ("failed to create selector: " ++
        "for 'in', 'notin' operators, values set can't be empty") :=
  ⟨c3_amended.1 {} podSpecerAppFoo [] [] badNetpol _ rfl,
    (c3_amended.2.1 [] [] {} badNetpol _ rfl).1,
    c3_amended.2.2.1 {} ssNoReplicas badPdb [] _ rfl rfl⟩

/-- Helper: the path loop of the Ingress check never resets the
all-matched flag and never drops a recorded comment. -/
theorem pathsStep_preserves (allS : List Service)
    (options : ingress.Options) (ns : String) (c : TestScoreComment)
    (acc : Bool × List TestScoreComment) (path : HTTPIngressPath)
    (h : acc.1 = false ∧ c ∈ acc.2) :
    (ingress.pathsStep allS options ns acc path).1 = false ∧
    c ∈ (ingress.pathsStep allS options ns acc path).2 := by
  unfold ingress.pathsStep
  by_cases hm : ingress.pathHasMatch allS options ns path = true
  · simpa [hm] using h
  · simp only [hm, Bool.false_eq_true, if_false]
    exact ⟨by simp, List.mem_append_left _ h.2⟩

/-- Helper: folding the path loop preserves the cleared flag and recorded
comments. -/
theorem foldl_pathsStep_preserves (allS : List Service)
    (options : ingress.Options) (ns : String) (c : TestScoreComment)
    (paths : List HTTPIngressPath) (acc : Bool × List TestScoreComment)
    (h : acc.1 = false ∧ c ∈ acc.2) :
    (paths.foldl (ingress.pathsStep allS options ns) acc).1 = false ∧
    c ∈ (paths.foldl (ingress.pathsStep allS options ns) acc).2 := by
  induction paths generalizing acc with
  | nil => exact h
  | cons p ps ih =>
    rw [List.foldl_cons]
    exact ih _ (pathsStep_preserves allS options ns c acc p h)

/-- Helper: one rule of the Ingress check preserves the cleared flag and
recorded comments. -/
theorem rulesStep_preserves (allS : List Service)
    (options : ingress.Options) (ns : String) (c : TestScoreComment)
    (acc : Bool × List TestScoreComment) (rule : IngressRule)
    (h : acc.1 = false ∧ c ∈ acc.2) :
    (ingress.rulesStep allS options ns acc rule).1 = false ∧
    c ∈ (ingress.rulesStep allS options ns acc rule).2 := by
  unfold ingress.rulesStep
  cases rule.HTTP with
  | none => exact h
  | some http => exact foldl_pathsStep_preserves allS options ns c _ acc h

/-- Helper: folding the rule loop preserves the cleared flag and recorded
comments. -/
theorem foldl_rulesStep_preserves (allS : List Service)
    (options : ingress.Options) (ns : String) (c : TestScoreComment)
    (rules : List IngressRule) (acc : Bool × List TestScoreComment)
    (h : acc.1 = false ∧ c ∈ acc.2) :
    (rules.foldl (ingress.rulesStep allS options ns) acc).1 = false ∧
    c ∈ (rules.foldl (ingress.rulesStep allS options ns) acc).2 := by
  induction rules generalizing acc with
  | nil => exact h
  | cons r rs ih =>
    rw [List.foldl_cons]
    exact ih _ (rulesStep_preserves allS options ns c acc r h)

/-- C7 counterexample: the only Service named svc exposes no port numbered
8080, yet the Ingress referencing svc:8080 is graded AllOK — the
unnamed service port (empty name) satisfies the name-fallback comparison
against the numeric backend reference's empty port name. -/
theorem c7_counterexample :
    (∀ p ∈ svcUnnamedPort80.Spec.Ports, p.Port ≠ 8080) ∧
    (ingress.ingressTargetsServiceCommon ingressPort8080
      [svcUnnamedPort80] {}).1.Grade = .allOK :=
  ⟨by decide, by decide⟩

/-- C7 amended: when an HTTP path references a Service by name and a
positive port number, and every Service of that name in the Ingress's
default-resolved namespace has no port with that number AND no port whose
name equals the backend's port name (empty for a purely numeric
reference), the check grades Critical and records a comment naming the
missing service name and port number. -/
theorem c7_amended (ing : Ingress) (services : List Service)
    (options : ingress.Options) (rule : IngressRule)
    (http : HTTPIngressRuleValue) (path : HTTPIngressPath)
    (bsvc : IngressServiceBackend)
    (hrule : rule ∈ ing.Rules) (hhttp : rule.HTTP = some http)
    (hpath : path ∈ http.Paths)
    (hbackend : path.Backend.Service = some bsvc)
    (hnum : bsvc.Port.Number > 0)
    (hnosvc : ∀ s ∈ services,
      resolveNs s.metadata.Namespace options.Namespace =
        resolveNs ing.GetObjectMeta.Namespace options.Namespace →
      s.metadata.Name = bsvc.Name →
      ∀ port ∈ s.Spec.Ports,
        port.Port ≠ bsvc.Port.Number ∧ port.Name ≠ bsvc.Port.Name) :
    (ingress.ingressTargetsServiceCommon ing services options).1.Grade =
      .critical ∧
    ingress.unmatchedPathComment path ∈
      (ingress.ingressTargetsServiceCommon ing services
        options).1.Comments ∧
    (ingress.unmatchedPathComment path).Description =
      "No service with name " ++ bsvc.Name ++ " and port number " ++
        toString bsvc.Port.Number ++ " was found" := by
  have hnomatch : ingress.pathHasMatch services options
      (resolveNs ing.GetObjectMeta.Namespace options.Namespace) path
      = false := by
    unfold ingress.pathHasMatch
    rw [List.any_eq_false]
    intro s hs
    rw [hbackend]
    by_cases hns : resolveNs s.metadata.Namespace options.Namespace =
        resolveNs ing.GetObjectMeta.Namespace options.Namespace
    · by_cases hname : s.metadata.Name = bsvc.Name
      · have hports : s.Spec.Ports.any
            (ingress.portSatisfies bsvc.Port) = false := by
          rw [List.any_eq_false]
          intro port hport
          obtain ⟨hp1, hp2⟩ := hnosvc s hs hns hname port hport
          unfold ingress.portSatisfies
          simp [hp1, hp2]
        simp [hns, hname, hports]
      · simp [hns, hname]
    · simp [hns]
  have hmain : (ing.Rules.foldl (ingress.rulesStep services options
      (resolveNs ing.GetObjectMeta.Namespace options.Namespace))
      (true, [])).1 = false ∧
      ingress.unmatchedPathComment path ∈
      (ing.Rules.foldl (ingress.rulesStep services options
        (resolveNs ing.GetObjectMeta.Namespace options.Namespace))
        (true, [])).2 := by
    obtain ⟨r1, r2, hsplit⟩ := List.append_of_mem hrule
    rw [hsplit, List.foldl_append, List.foldl_cons]
    apply foldl_rulesStep_preserves
    show (ingress.rulesStep services options _ _ rule).1 = false ∧ _
    unfold ingress.rulesStep
    rw [hhttp]
    dsimp only
    obtain ⟨p1, p2, hps⟩ := List.append_of_mem hpath
    rw [hps, List.foldl_append, List.foldl_cons]
    apply foldl_pathsStep_preserves
    have hstep : ∀ acc, (ingress.pathsStep services options
        (resolveNs ing.GetObjectMeta.Namespace options.Namespace)
        acc path) = (false, acc.2 ++ [ingress.unmatchedPathComment path])
        := by
      intro acc
      unfold ingress.pathsStep
      simp [hnomatch]
    rw [hstep]
    exact ⟨rfl, List.mem_append_right _ (List.mem_singleton_self _)⟩
  unfold ingress.ingressTargetsServiceCommon
  simp only [hmain.1, Bool.false_eq_true, if_false]
  refine ⟨trivial, hmain.2, ?_⟩
  unfold ingress.unmatchedPathComment
  rw [hbackend]
  simp [hnum]

/-- C7 amended witness: with the svc port 80 named http, the svc:8080
reference is graded Critical with the number-naming comment. -/
theorem c7_amended_witness :
    (ingress.ingressTargetsServiceCommon ingressPort8080
      [svcNamedPort80] {}).1.Grade = .critical ∧
    ingress.unmatchedPathComment pathSvc8080 ∈
      (ingress.ingressTargetsServiceCommon ingressPort8080
        [svcNamedPort80] {}).1.Comments ∧
    (ingress.unmatchedPathComment pathSvc8080).Description =
      "No service with name " ++ backendSvc8080.Name ++
        " and port number " ++ toString backendSvc8080.Port.Number ++
        " was found" :=
  c7_amended ingressPort8080 [svcNamedPort80] {}
    { HTTP := some { Paths := [pathSvc8080] } } { Paths := [pathSvc8080] }
    pathSvc8080 backendSvc8080 (by decide) rfl (by decide) rfl (by decide)
    (by decide)

/-- Helper: an error-checked per-object check run completes with all
(check, score) pairs when no rule function errors. -/
theorem runChecksStrict_ok {T : Type} (tests : List (checks.GenCheck T))
    (obj : T) (h : ∀ t ∈ tests, (t.Fn obj).2 = none) :
    score.runChecksStrict tests obj =
      .ok (score.runChecksLenient tests obj) := by
  induction tests with
  | nil => rfl
  | cons t ts ih =>
    have h1 := h t (List.mem_cons_self t ts)
    have h2 : ∀ x ∈ ts, (x.Fn obj).2 = none :=
      fun x hx => h x (List.mem_cons_of_mem t hx)
    simp only [score.runChecksStrict, h1, ih h2, score.runChecksLenient,
      List.map_cons]

/-- Helper: an error-checked per-kind loop completes when no invoked rule
function errors. -/
theorem scoreKindStrict_ok {T : Type} (tests : List (checks.GenCheck T))
    (tm : T → TypeMeta) (om : T → ObjectMeta) (objs : List T)
    (h : ∀ o ∈ objs, ∀ t ∈ tests, (t.Fn o).2 = none) :
    score.scoreKindStrict tests tm om objs =
      .ok (objs.map (fun o =>
        ⟨tm o, om o, score.runChecksLenient tests o⟩)) := by
  induction objs with
  | nil => rfl
  | cons o os ih =>
    have h1 := h o (List.mem_cons_self o os)
    have h2 : ∀ x ∈ os, ∀ t ∈ tests, (t.Fn x).2 = none :=
      fun x hx => h x (List.mem_cons_of_mem o hx)
    simp only [score.scoreKindStrict, runChecksStrict_ok tests o h1, ih h2,
      List.map_cons]

/-- C2 counterexample: a bare Pod whose (only) pod check's rule function
returns an error does not abort the pass — `Score` returns a scorecard
recording the zero score, because the bare-Pod loop discards the error. -/
theorem c2_counterexample :
    (failingPodCheck.Fn (score.podSpeccerOfPod {})).2 = some "boom" ∧
    score.Score { pods := [{}] }
      { pods := [("container-resources", failingPodCheck)] } {} =
      .ok [⟨{}, {}, [(fixtureCheck, {})]⟩] :=
  ⟨rfl, rfl⟩


/-- Helper: case analysis of one Except bind step. -/
theorem except_bind_cases {A B : Type} (x : Except String A)
    (f : A → Except String B) (y : Except String B) (h : x >>= f = y) :
    (∃ e, x = .error e ∧ y = .error e) ∨ (∃ a, x = .ok a ∧ f a = y) := by
  cases x with
  | error e => exact Or.inl ⟨e, rfl, h.symm⟩
  | ok a => exact Or.inr ⟨a, rfl, h⟩

/-- Helper: when an error-checked per-object check run aborts, the error
is one returned by an invoked rule function of that run. -/
theorem runChecksStrict_err {T : Type} (tests : List (checks.GenCheck T))
    (obj : T) (e : String)
    (h : score.runChecksStrict tests obj = .error e) :
    ∃ t ∈ tests, (t.Fn obj).2 = some e := by
  induction tests with
  | nil => exact absurd h (by simp [score.runChecksStrict])
  | cons t ts ih =>
    simp only [score.runChecksStrict] at h
    cases hf : (t.Fn obj).2 with
    | some e0 =>
      rw [hf] at h
      dsimp only at h
      injection h with he
      subst he
      exact ⟨t, List.mem_cons_self t ts, hf⟩
    | none =>
      rw [hf] at h
      dsimp only at h
      cases hr : score.runChecksStrict ts obj with
      | error e1 =>
        rw [hr] at h
        dsimp only at h
        injection h with he
        subst he
        obtain ⟨x, hx, hfx⟩ := ih hr
        exact ⟨x, List.mem_cons_of_mem t hx, hfx⟩
      | ok rest =>
        rw [hr] at h
        dsimp only at h
        exact absurd h (by simp)

/-- Helper: when an error-checked per-object check run completes, no
invoked rule function errored. -/
theorem runChecksStrict_ok_inv {T : Type} (tests : List (checks.GenCheck T))
    (obj : T) (l : List (Check × TestScore))
    (h : score.runChecksStrict tests obj = .ok l) :
    ∀ t ∈ tests, (t.Fn obj).2 = none := by
  induction tests generalizing l with
  | nil => intro t ht; exact absurd ht (by simp)
  | cons t ts ih =>
    simp only [score.runChecksStrict] at h
    cases hf : (t.Fn obj).2 with
    | some e0 =>
      rw [hf] at h
      dsimp only at h
      exact absurd h (by simp)
    | none =>
      rw [hf] at h
      dsimp only at h
      cases hr : score.runChecksStrict ts obj with
      | error e1 =>
        rw [hr] at h
        dsimp only at h
        exact absurd h (by simp)
      | ok rest =>
        intro x hx
        rcases List.mem_cons.mp hx with rfl | hx2
        · exact hf
        · exact ih rest hr x hx2

/-- Helper: when an error-checked per-kind loop aborts, the error is one
returned by an invoked rule function on an object of that kind. -/
theorem scoreKindStrict_err {T : Type} (tests : List (checks.GenCheck T))
    (tm : T → TypeMeta) (om : T → ObjectMeta) (objs : List T) (e : String)
    (h : score.scoreKindStrict tests tm om objs = .error e) :
    ∃ o ∈ objs, ∃ t ∈ tests, (t.Fn o).2 = some e := by
  induction objs with
  | nil => exact absurd h (by simp [score.scoreKindStrict])
  | cons o os ih =>
    simp only [score.scoreKindStrict] at h
    cases hr : score.runChecksStrict tests o with
    | error e0 =>
      rw [hr] at h
      dsimp only at h
      injection h with he
      subst he
      exact ⟨o, List.mem_cons_self o os, runChecksStrict_err tests o _ hr⟩
    | ok rs =>
      rw [hr] at h
      dsimp only at h
      cases hrec : score.scoreKindStrict tests tm om os with
      | error e1 =>
        rw [hrec] at h
        dsimp only at h
        injection h with he
        subst he
        obtain ⟨x, hx, hw⟩ := ih hrec
        exact ⟨x, List.mem_cons_of_mem o hx, hw⟩
      | ok rest =>
        rw [hrec] at h
        dsimp only at h
        exact absurd h (by simp)

/-- Helper: when an error-checked per-kind loop completes, no invoked
rule function errored. -/
theorem scoreKindStrict_ok_inv {T : Type} (tests : List (checks.GenCheck T))
    (tm : T → TypeMeta) (om : T → ObjectMeta) (objs : List T)
    (l : List ScoredObjectEntry)
    (h : score.scoreKindStrict tests tm om objs = .ok l) :
    ∀ o ∈ objs, ∀ t ∈ tests, (t.Fn o).2 = none := by
  induction objs generalizing l with
  | nil => intro o ho; exact absurd ho (by simp)
  | cons o os ih =>
    simp only [score.scoreKindStrict] at h
    cases hr : score.runChecksStrict tests o with
    | error e0 =>
      rw [hr] at h
      dsimp only at h
      exact absurd h (by simp)
    | ok rs =>
      rw [hr] at h
      dsimp only at h
      cases hrec : score.scoreKindStrict tests tm om os with
      | error e1 =>
        rw [hrec] at h
        dsimp only at h
        exact absurd h (by simp)
      | ok rest =>
        intro x hx
        rcases List.mem_cons.mp hx with rfl | hx2
        · exact runChecksStrict_ok_inv tests x rs hr
        · exact ih rest hrec x hx2

/-- Helper: a run error returned by `Score` is an error returned by a
rule invocation of one of the nine error-checked loops. -/
theorem Score_error_inv (allObjects : AllTypes) (allChecks : Checks)
    (runConfig : RunConfiguration) (e : String)
    (hs : score.Score allObjects allChecks runConfig = .error e) :
    strictLoopError allObjects allChecks runConfig e := by
  unfold score.Score at hs
  unfold strictLoopError
  rcases except_bind_cases _ _ _ hs with ⟨e1, hx, hy⟩ | ⟨a1, hx1, hs⟩
  · injection hy.symm with he
    subst he
    exact Or.inl (scoreKindStrict_err _ _ _ _ _ hx)
  · try dsimp only at hs
    rcases except_bind_cases _ _ _ hs with ⟨e2, hx, hy⟩ | ⟨a2, hx2, hs⟩
    · injection hy.symm with he
      subst he
      exact Or.inr (Or.inl (scoreKindStrict_err _ _ _ _ _ hx))
    · try dsimp only at hs
      rcases except_bind_cases _ _ _ hs with ⟨e3, hx, hy⟩ | ⟨a3, hx3, hs⟩
      · injection hy.symm with he
        subst he
        exact Or.inr (Or.inr (Or.inl (scoreKindStrict_err _ _ _ _ _ hx)))
      · try dsimp only at hs
        rcases except_bind_cases _ _ _ hs with ⟨e4, hx, hy⟩ | ⟨a4, hx4, hs⟩
        · injection hy.symm with he
          subst he
          exact Or.inr (Or.inr (Or.inr (Or.inl
            (scoreKindStrict_err _ _ _ _ _ hx))))
        · try dsimp only at hs
          rcases except_bind_cases _ _ _ hs with
            ⟨e5, hx, hy⟩ | ⟨a5, hx5, hs⟩
          · injection hy.symm with he
            subst he
            exact Or.inr (Or.inr (Or.inr (Or.inr (Or.inl
              (scoreKindStrict_err _ _ _ _ _ hx)))))
          · try dsimp only at hs
            rcases except_bind_cases _ _ _ hs with
              ⟨e6, hx, hy⟩ | ⟨a6, hx6, hs⟩
            · injection hy.symm with he
              subst he
              exact Or.inr (Or.inr (Or.inr (Or.inr (Or.inr (Or.inl
                (scoreKindStrict_err _ _ _ _ _ hx))))))
            · try dsimp only at hs
              rcases except_bind_cases _ _ _ hs with
                ⟨e7, hx, hy⟩ | ⟨a7, hx7, hs⟩
              · injection hy.symm with he
                subst he
                by_cases hsj : runConfig.SkipJobs = true
                · rw [hsj] at hx
                  simp at hx
                · simp only [hsj, Bool.false_eq_true, if_false] at hx
                  refine Or.inr (Or.inr (Or.inr (Or.inr (Or.inr (Or.inr
                    (Or.inl ⟨by simpa using hsj,
                      scoreKindStrict_err _ _ _ _ _ hx⟩))))))
              · try dsimp only at hs
                rcases except_bind_cases _ _ _ hs with
                  ⟨e8, hx, hy⟩ | ⟨a8, hx8, hs⟩
                · injection hy.symm with he
                  subst he
                  exact Or.inr (Or.inr (Or.inr (Or.inr (Or.inr (Or.inr
                    (Or.inr (Or.inl (scoreKindStrict_err _ _ _ _ _ hx))))))))
                · try dsimp only at hs
                  rcases except_bind_cases _ _ _ hs with
                    ⟨e9, hx, hy⟩ | ⟨a9, hx9, hs⟩
                  · injection hy.symm with he
                    subst he
                    exact Or.inr (Or.inr (Or.inr (Or.inr (Or.inr (Or.inr
                      (Or.inr (Or.inr
                        (scoreKindStrict_err _ _ _ _ _ hx))))))))
                  · simp at hs

/-- Helper: when `Score` returns a scorecard, no rule invocation of any
of the nine error-checked loops errored. -/
theorem Score_ok_inv (allObjects : AllTypes) (allChecks : Checks)
    (runConfig : RunConfiguration) (sc : Scorecard)
    (hs : score.Score allObjects allChecks runConfig = .ok sc) :
    (∀ o ∈ allObjects.ingresses,
      ∀ t ∈ checks.goValues allChecks.ingresses, (t.Fn o).2 = none) ∧
    (∀ o ∈ allObjects.metas,
      ∀ t ∈ checks.goValues allChecks.metas, (t.Fn o).2 = none) ∧
    (∀ o ∈ allObjects.services,
      ∀ t ∈ checks.goValues allChecks.services, (t.Fn o).2 = none) ∧
    (∀ o ∈ allObjects.statefulsets,
      ∀ t ∈ checks.goValues allChecks.statefulsets, (t.Fn o).2 = none) ∧
    (∀ o ∈ allObjects.deployments,
      ∀ t ∈ checks.goValues allChecks.deployments, (t.Fn o).2 = none) ∧
    (∀ o ∈ allObjects.networkpolicies,
      ∀ t ∈ checks.goValues allChecks.networkpolicies,
        (t.Fn o).2 = none) ∧
    (runConfig.SkipJobs = false → ∀ o ∈ allObjects.cronjobs,
      ∀ t ∈ checks.goValues allChecks.cronjobs, (t.Fn o).2 = none) ∧
    (∀ o ∈ allObjects.horizontalPodAutoscalers,
      ∀ t ∈ checks.goValues allChecks.horizontalPodAutoscalers,
        (t.Fn o).2 = none) ∧
    (∀ o ∈ allObjects.poddisruptionbudgets,
      ∀ t ∈ checks.goValues allChecks.poddisruptionbudgets,
        (t.Fn o).2 = none) := by
  unfold score.Score at hs
  rcases except_bind_cases _ _ _ hs with ⟨e1, hx, hy⟩ | ⟨a1, hx1, hs⟩
  · exact absurd hy (by simp)
  · try dsimp only at hs
    rcases except_bind_cases _ _ _ hs with ⟨e2, hx, hy⟩ | ⟨a2, hx2, hs⟩
    · exact absurd hy (by simp)
    · try dsimp only at hs
      rcases except_bind_cases _ _ _ hs with ⟨e3, hx, hy⟩ | ⟨a3, hx3, hs⟩
      · exact absurd hy (by simp)
      · try dsimp only at hs
        rcases except_bind_cases _ _ _ hs with ⟨e4, hx, hy⟩ | ⟨a4, hx4, hs⟩
        · exact absurd hy (by simp)
        · try dsimp only at hs
          rcases except_bind_cases _ _ _ hs with
            ⟨e5, hx, hy⟩ | ⟨a5, hx5, hs⟩
          · exact absurd hy (by simp)
          · try dsimp only at hs
            rcases except_bind_cases _ _ _ hs with
              ⟨e6, hx, hy⟩ | ⟨a6, hx6, hs⟩
            · exact absurd hy (by simp)
            · try dsimp only at hs
              rcases except_bind_cases _ _ _ hs with
                ⟨e7, hx, hy⟩ | ⟨a7, hx7, hs⟩
              · exact absurd hy (by simp)
              · try dsimp only at hs
                rcases except_bind_cases _ _ _ hs with
                  ⟨e8, hx, hy⟩ | ⟨a8, hx8, hs⟩
                · exact absurd hy (by simp)
                · try dsimp only at hs
                  rcases except_bind_cases _ _ _ hs with
                    ⟨e9, hx, hy⟩ | ⟨a9, hx9, hs⟩
                  · exact absurd hy (by simp)
                  · refine ⟨scoreKindStrict_ok_inv _ _ _ _ _ hx1,
                      scoreKindStrict_ok_inv _ _ _ _ _ hx2,
                      scoreKindStrict_ok_inv _ _ _ _ _ hx3,
                      scoreKindStrict_ok_inv _ _ _ _ _ hx4,
                      scoreKindStrict_ok_inv _ _ _ _ _ hx5,
                      scoreKindStrict_ok_inv _ _ _ _ _ hx6, ?_,
                      scoreKindStrict_ok_inv _ _ _ _ _ hx8,
                      scoreKindStrict_ok_inv _ _ _ _ _ hx9⟩
                    intro hsj
                    simp only [hsj, Bool.false_eq_true, if_false] at hx7
                    exact scoreKindStrict_ok_inv _ _ _ _ _ hx7

/-- C2 amended: a rule-function error in any of the nine error-checked
loops — Ingresses, Metas, Services, StatefulSets, Deployments,
NetworkPolicies, CronJobs (when not globally skipped),
HorizontalPodAutoscalers, PodDisruptionBudgets — aborts the whole pass:
`Score` returns a scorecard exactly when no rule invocation of those
loops errors, and any run error it returns is an error actually returned
by such an invocation; errors returned in the bare-Pod and PodSpeccers
loops are discarded and never abort.  A Deployment rule error is
propagated as the run error at the concrete input. -/
theorem c2_amended :
    (∀ (allObjects : AllTypes) (allChecks : Checks)
      (runConfig : RunConfiguration),
      (∀ e, score.Score allObjects allChecks runConfig = .error e →
        strictLoopError allObjects allChecks runConfig e) ∧
      ((∃ sc, score.Score allObjects allChecks runConfig = .ok sc) ↔
        ¬∃ e, strictLoopError allObjects allChecks runConfig e)) ∧
    score.Score { deployments := [{}] }
      { deployments := [("container-resources", failingDeploymentCheck)] }
      {} = .error "boom" := by
  constructor
  · intro objs chks cfg
    refine ⟨Score_error_inv objs chks cfg, ?_, ?_⟩
    · rintro ⟨sc, hs⟩ ⟨e, hD⟩
      obtain ⟨g1, g2, g3, g4, g5, g6, g7, g8, g9⟩ :=
        Score_ok_inv objs chks cfg sc hs
      unfold strictLoopError at hD
      rcases hD with ⟨o, ho, t, ht, hft⟩ | ⟨o, ho, t, ht, hft⟩ |
        ⟨o, ho, t, ht, hft⟩ | ⟨o, ho, t, ht, hft⟩ | ⟨o, ho, t, ht, hft⟩ |
        ⟨o, ho, t, ht, hft⟩ | ⟨hsj, o, ho, t, ht, hft⟩ |
        ⟨o, ho, t, ht, hft⟩ | ⟨o, ho, t, ht, hft⟩
      · rw [g1 o ho t ht] at hft; exact Option.noConfusion hft
      · rw [g2 o ho t ht] at hft; exact Option.noConfusion hft
      · rw [g3 o ho t ht] at hft; exact Option.noConfusion hft
      · rw [g4 o ho t ht] at hft; exact Option.noConfusion hft
      · rw [g5 o ho t ht] at hft; exact Option.noConfusion hft
      · rw [g6 o ho t ht] at hft; exact Option.noConfusion hft
      · rw [g7 hsj o ho t ht] at hft; exact Option.noConfusion hft
      · rw [g8 o ho t ht] at hft; exact Option.noConfusion hft
      · rw [g9 o ho t ht] at hft; exact Option.noConfusion hft
    · intro hnD
      have h1 : ∀ o ∈ objs.ingresses,
          ∀ t ∈ checks.goValues chks.ingresses, (t.Fn o).2 = none := by
        intro o ho t ht
        cases hv : (t.Fn o).2 with
        | none => rfl
        | some e => exact absurd ⟨e, Or.inl ⟨o, ho, t, ht, hv⟩⟩ hnD
      have h2 : ∀ o ∈ objs.metas,
          ∀ t ∈ checks.goValues chks.metas, (t.Fn o).2 = none := by
        intro o ho t ht
        cases hv : (t.Fn o).2 with
        | none => rfl
        | some e =>
          exact absurd ⟨e, Or.inr (Or.inl ⟨o, ho, t, ht, hv⟩)⟩ hnD
      have h3 : ∀ o ∈ objs.services,
          ∀ t ∈ checks.goValues chks.services, (t.Fn o).2 = none := by
        intro o ho t ht
        cases hv : (t.Fn o).2 with
        | none => rfl
        | some e =>
          exact absurd ⟨e, Or.inr (Or.inr (Or.inl ⟨o, ho, t, ht, hv⟩))⟩ hnD
      have h4 : ∀ o ∈ objs.statefulsets,
          ∀ t ∈ checks.goValues chks.statefulsets, (t.Fn o).2 = none := by
        intro o ho t ht
        cases hv : (t.Fn o).2 with
        | none => rfl
        | some e =>
          exact absurd ⟨e, Or.inr (Or.inr (Or.inr (Or.inl
            ⟨o, ho, t, ht, hv⟩)))⟩ hnD
      have h5 : ∀ o ∈ objs.deployments,
          ∀ t ∈ checks.goValues chks.deployments, (t.Fn o).2 = none := by
        intro o ho t ht
        cases hv : (t.Fn o).2 with
        | none => rfl
        | some e =>
          exact absurd ⟨e, Or.inr (Or.inr (Or.inr (Or.inr (Or.inl
            ⟨o, ho, t, ht, hv⟩))))⟩ hnD
      have h6 : ∀ o ∈ objs.networkpolicies,
          ∀ t ∈ checks.goValues chks.networkpolicies,
            (t.Fn o).2 = none := by
        intro o ho t ht
        cases hv : (t.Fn o).2 with
        | none => rfl
        | some e =>
          exact absurd ⟨e, Or.inr (Or.inr (Or.inr (Or.inr (Or.inr (Or.inl
            ⟨o, ho, t, ht, hv⟩)))))⟩ hnD
      have h8 : ∀ o ∈ objs.horizontalPodAutoscalers,
          ∀ t ∈ checks.goValues chks.horizontalPodAutoscalers,
            (t.Fn o).2 = none := by
        intro o ho t ht
        cases hv : (t.Fn o).2 with
        | none => rfl
        | some e =>
          exact absurd ⟨e, Or.inr (Or.inr (Or.inr (Or.inr (Or.inr (Or.inr
            (Or.inr (Or.inl ⟨o, ho, t, ht, hv⟩)))))))⟩ hnD
      have h9 : ∀ o ∈ objs.poddisruptionbudgets,
          ∀ t ∈ checks.goValues chks.poddisruptionbudgets,
            (t.Fn o).2 = none := by
        intro o ho t ht
        cases hv : (t.Fn o).2 with
        | none => rfl
        | some e =>
          exact absurd ⟨e, Or.inr (Or.inr (Or.inr (Or.inr (Or.inr (Or.inr
            (Or.inr (Or.inr ⟨o, ho, t, ht, hv⟩)))))))⟩ hnD
      simp only [score.Score,
        scoreKindStrict_ok _ _ _ _ h1, scoreKindStrict_ok _ _ _ _ h2,
        scoreKindStrict_ok _ _ _ _ h3, scoreKindStrict_ok _ _ _ _ h4,
        scoreKindStrict_ok _ _ _ _ h5, scoreKindStrict_ok _ _ _ _ h6,
        scoreKindStrict_ok _ _ _ _ h8, scoreKindStrict_ok _ _ _ _ h9]
      by_cases hsj : cfg.SkipJobs = true
      · simp only [hsj, if_true]
        exact ⟨_, rfl⟩
      · have hsjf : cfg.SkipJobs = false := by simpa using hsj
        have h7 : ∀ o ∈ objs.cronjobs,
            ∀ t ∈ checks.goValues chks.cronjobs, (t.Fn o).2 = none := by
          intro o ho t ht
          cases hv : (t.Fn o).2 with
          | none => rfl
          | some e =>
            exact absurd ⟨e, Or.inr (Or.inr (Or.inr (Or.inr (Or.inr
              (Or.inr (Or.inl ⟨hsjf, o, ho, t, ht, hv⟩))))))⟩ hnD
        simp only [hsj, Bool.false_eq_true, if_false,
          scoreKindStrict_ok _ _ _ _ h7]
        exact ⟨_, rfl⟩
  · rfl

/-- C2 amended witness: the failing bare-Pod input of the counterexample
has no error-checked-loop rule errors, and the theorem's equivalence
yields the scorecard. -/
theorem c2_amended_witness :
    ∃ sc, score.Score { pods := [{}] }
      { pods := [("container-resources", failingPodCheck)] } {} =
      .ok sc :=
  ((c2_amended.1 { pods := [{}] }
    { pods := [("container-resources", failingPodCheck)] } {}).2).mpr
    (by simp [strictLoopError, checks.goValues])
